import Mathlib

/-!
Formal model of the MultiQC plugin modules in this repository
(FastQ Screen, CheckQC, Genomescope2, Merqury, Pretext).

The Python sources are shallowly embedded: Python dicts become insertion
ordered association lists, Python floats become exact rationals (the inputs
are decimal literals), fallible operations return `Except PyExc`.  Each
module's parsing and aggregation logic is translated function by function,
and the theorems at the end of the file settle the specification's
testable properties against these definitions.
-/

/-- Python exception values that the modelled code can raise. -/
inductive PyExc
  | userWarning
  | valueError
  | indexError
  | nameError (missing : String)
  | osError (msg : String)
deriving DecidableEq

deriving instance DecidableEq for Except

namespace Py

/-- `d[k] = v` on a Python dict modelled as an insertion ordered association
list: replace in place when the key exists, append otherwise. -/
def dictInsert [DecidableEq α] (d : List (α × β)) (k : α) (v : β) : List (α × β) :=
  match d with
  | [] => [(k, v)]
  | (k₀, v₀) :: t => if k₀ = k then (k, v) :: t else (k₀, v₀) :: dictInsert t k v

/-- `d.get(k)` / `d[k]` lookup on a Python dict. -/
def dictGet [DecidableEq α] (d : List (α × β)) (k : α) : Option β :=
  match d with
  | [] => none
  | (k₀, v₀) :: t => if k₀ = k then some v₀ else dictGet t k

/-- `d.pop(k, None)` on a Python dict: remove the entry for `k` if present. -/
def dictErase [DecidableEq α] (d : List (α × β)) (k : α) : List (α × β) :=
  match d with
  | [] => []
  | (k₀, v₀) :: t => if k₀ = k then t else (k₀, v₀) :: dictErase t k

/-- The key list of a Python dict, in insertion order. -/
def dictKeys (d : List (α × β)) : List α := d.map Prod.fst

/-- ASCII model of the characters Python's `str.strip()` and the regex
class `\s` treat as whitespace. -/
def pyIsSpace (c : Char) : Bool :=
  c = ' ' || c = '\t' || c = '\n' || c = '\r' || c = '\x0b' || c = '\x0c'

/-- ASCII model of the regex class `\w`. -/
def pyIsWord (c : Char) : Bool := c.isAlphanum || c = '_'

/-- Characters matched by the regex class `[\d\.]`. -/
def pyIsDigitDot (c : Char) : Bool := c.isDigit || c = '.'

/-- Numeric value of a run of decimal digit characters. -/
def digitsToNat (ds : List Char) : ℕ :=
  ds.foldl (fun n c => 10 * n + (c.toNat - 48)) 0

/-- Exponent digits of a float literal: the characters must run to the end
of the string and all be digits. -/
def floatExpDigits (ds : List Char) : Option ℤ :=
  if ds ≠ [] ∧ ds.all Char.isDigit then some (digitsToNat ds) else none

/-- Optional exponent tail of a float literal (`e`/`E`, optional sign,
digits), returning the signed exponent; the empty tail yields exponent 0. -/
def floatExpPart : List Char → Option ℤ
  | [] => some (0 : ℤ)
  | c :: rest =>
    if c = 'e' ∨ c = 'E' then
      match rest with
      | '+' :: ds => floatExpDigits ds
      | '-' :: ds => (floatExpDigits ds).map Neg.neg
      | ds => floatExpDigits ds
    else none

/-- Unsigned part of a float literal: `d+`, `d+.d*`, `.d+`, or `d*.d+`,
followed by an optional exponent. -/
def floatUnsigned (cs : List Char) : Option ℚ :=
  let ip := cs.takeWhile Char.isDigit
  let rest := cs.dropWhile Char.isDigit
  match rest with
  | '.' :: rest₂ =>
    let fp := rest₂.takeWhile Char.isDigit
    let rest₃ := rest₂.dropWhile Char.isDigit
    if ip.isEmpty && fp.isEmpty then none
    else (floatExpPart rest₃).map
      (fun e => ((digitsToNat ip : ℚ) + (digitsToNat fp : ℚ) / 10 ^ fp.length) * (10 : ℚ) ^ e)
  | _ =>
    if ip.isEmpty then none
    else (floatExpPart rest).map (fun e => (digitsToNat ip : ℚ) * (10 : ℚ) ^ e)

/-- Model of Python's `float(s)` on the characters of a decimal string, as
an exact rational: optional surrounding whitespace, optional sign, decimal
mantissa, optional exponent.  The special forms `inf`/`nan` and underscore
grouping are not modelled; `none` plays the role of `ValueError`. -/
def pyFloatChars? (cs₀ : List Char) : Option ℚ :=
  let cs := cs₀.dropWhile pyIsSpace
  let cs := (cs.reverse.dropWhile pyIsSpace).reverse
  match cs with
  | '+' :: rest => floatUnsigned rest
  | '-' :: rest => (floatUnsigned rest).map Neg.neg
  | rest => floatUnsigned rest

/-- `float()` on a `String`. -/
def pyFloat? (s : String) : Option ℚ := pyFloatChars? s.data

/-- Splits a character list at every occurrence of `sep` (Python
`str.split(sep)` for a one-character separator). -/
def splitOnChar (sep : Char) (cs : List Char) : List (List Char) :=
  cs.foldr
    (fun c ps =>
      if c = sep then [] :: ps
      else
        match ps with
        | [] => [[c]]
        | p :: rest => (c :: p) :: rest)
    [[]]

/-- Splits a character list at every `'\n'`. -/
def splitNl (cs : List Char) : List (List Char) := splitOnChar '\n' cs

/-- Model of Python's `int(s)` on decimal string forms: optional
surrounding whitespace, optional sign, digits; `none` plays the role of
`ValueError`. -/
def pyIntChars? (cs₀ : List Char) : Option ℤ :=
  let cs := cs₀.dropWhile pyIsSpace
  let cs := (cs.reverse.dropWhile pyIsSpace).reverse
  match cs with
  | '+' :: ds => if ds ≠ [] ∧ ds.all Char.isDigit then some (digitsToNat ds : ℤ) else none
  | '-' :: ds => if ds ≠ [] ∧ ds.all Char.isDigit then some (-(digitsToNat ds : ℤ)) else none
  | ds => if ds ≠ [] ∧ ds.all Char.isDigit then some (digitsToNat ds : ℤ) else none

/-- Model of Python's `s.replace(pat, "")`: remove all (non-overlapping,
left-to-right) occurrences of `pat`; the fuel argument is bounded by the
character count, so it never runs out. -/
def removeAllGo (pat : List Char) : ℕ → List Char → List Char
  | _, [] => []
  | 0, cs => cs
  | fuel + 1, c :: cs =>
    if pat ≠ [] ∧ (c :: cs).take pat.length = pat then
      removeAllGo pat fuel ((c :: cs).drop pat.length)
    else c :: removeAllGo pat fuel cs

/-- `s.replace(pat, "")` on characters. -/
def removeAll (pat : List Char) (cs : List Char) : List Char :=
  removeAllGo pat cs.length cs

/-- Python's `d1.update(d2)`: insert every entry of `d2` into `d1`,
overwriting in place or appending. -/
def dictUpdate [DecidableEq α] (d₁ d₂ : List (α × β)) : List (α × β) :=
  d₂.foldl (fun d p => dictInsert d p.1 p.2) d₁

/-- Model of Python's `str.splitlines()` for `\n` / `\r\n` separated text:
split on `'\n'`, strip one trailing `'\r'` from each piece, and drop the
empty piece after a trailing newline. -/
def pySplitlines (s : String) : List (List Char) :=
  let parts := splitNl s.data
  let parts := parts.map (fun p => if p.getLast? = some '\r' then p.dropLast else p)
  match parts.getLast? with
  | some last => if last = [] then parts.dropLast else parts
  | none => parts

/-- Model of Python's `str.strip()` (no argument) on characters. -/
def pyStrip (cs : List Char) : List Char :=
  ((cs.dropWhile pyIsSpace).reverse.dropWhile pyIsSpace).reverse

/-- Model of Python's `str.rstrip(chars)` on characters: remove trailing
characters drawn from the set `chars`, in any combination. -/
def pyRstrip (cs : List Char) (chars : List Char) : List Char :=
  (cs.reverse.dropWhile (fun c => chars.contains c)).reverse

/-- Decimal digit characters of `n`, most significant first (fuel-based
so that the division recursion stays structural; the fuel is always
sufficient since `n < 10 ^ n + 1`). -/
def natReprGo : ℕ → ℕ → List Char
  | 0, _ => []
  | fuel + 1, n =>
    if n = 0 then []
    else natReprGo fuel (n / 10) ++ [Char.ofNat (48 + n % 10)]

/-- Model of Python's `str(n)` / f-string formatting for a non-negative
integer. -/
def natRepr (n : ℕ) : String :=
  if n = 0 then "0" else ⟨natReprGo (n + 1) n⟩

theorem dictGet_dictInsert_self [DecidableEq α] (d : List (α × β)) (k : α) (v : β) :
    dictGet (dictInsert d k v) k = some v := by
  induction d with
  | nil => simp [dictInsert, dictGet]
  | cons p t ih =>
    obtain ⟨k₀, v₀⟩ := p
    by_cases h : k₀ = k <;> simp [dictInsert, dictGet, h, ih]

theorem dictGet_dictInsert_ne [DecidableEq α] (d : List (α × β)) {k k' : α} (v : β)
    (h : k ≠ k') : dictGet (dictInsert d k v) k' = dictGet d k' := by
  induction d with
  | nil => simp [dictInsert, dictGet, h]
  | cons p t ih =>
    obtain ⟨k₀, v₀⟩ := p
    by_cases h₀ : k₀ = k
    · subst h₀
      simp [dictInsert, dictGet, h]
    · simp [dictInsert, dictGet, h₀, ih]

theorem mem_dictInsert [DecidableEq α] {d : List (α × β)} {k k' : α} {v v' : β}
    (h : (k', v') ∈ dictInsert d k v) : (k', v') ∈ d ∨ (k', v') = (k, v) := by
  induction d with
  | nil => simpa [dictInsert] using h
  | cons p t ih =>
    obtain ⟨k₀, v₀⟩ := p
    by_cases h₀ : k₀ = k
    · subst h₀
      have hd : dictInsert ((k₀, v₀) :: t) k₀ v = (k₀, v) :: t := by
        simp [dictInsert]
      rw [hd] at h
      rcases List.mem_cons.1 h with he | hm
      · exact Or.inr he
      · exact Or.inl (List.mem_cons_of_mem _ hm)
    · have hd : dictInsert ((k₀, v₀) :: t) k v = (k₀, v₀) :: dictInsert t k v := by
        simp [dictInsert, h₀]
      rw [hd] at h
      rcases List.mem_cons.1 h with he | hm
      · exact Or.inl (he ▸ List.mem_cons_self _ _)
      · rcases ih hm with h₁ | h₁
        · exact Or.inl (List.mem_cons_of_mem _ h₁)
        · exact Or.inr h₁

theorem mem_of_dictGet_eq_some [DecidableEq α] {d : List (α × β)} {k : α} {v : β}
    (h : dictGet d k = some v) : (k, v) ∈ d := by
  induction d with
  | nil => simp [dictGet] at h
  | cons p t ih =>
    obtain ⟨k₀, v₀⟩ := p
    by_cases h₀ : k₀ = k
    · subst h₀
      simp [dictGet] at h
      simp [h]
    · simp [dictGet, h₀] at h
      exact List.mem_cons_of_mem _ (ih h)

theorem dictKeys_dictInsert_of_mem [DecidableEq α] (d : List (α × β)) (k : α) (v : β)
    (h : k ∈ dictKeys d) : dictKeys (dictInsert d k v) = dictKeys d := by
  induction d with
  | nil => simp [dictKeys] at h
  | cons p t ih =>
    obtain ⟨k₀, v₀⟩ := p
    by_cases h₀ : k₀ = k
    · simp [dictInsert, dictKeys, h₀]
    · simp [dictKeys, h₀] at h
      rcases h with h | h

      · exact absurd h.symm h₀
      · simp only [dictInsert, if_neg h₀, dictKeys, List.map_cons]
        exact congrArg (k₀ :: ·) (by simpa [dictKeys] using ih (by simpa [dictKeys] using h))

theorem dictKeys_dictInsert_of_not_mem [DecidableEq α] (d : List (α × β)) (k : α) (v : β)
    (h : k ∉ dictKeys d) : dictKeys (dictInsert d k v) = dictKeys d ++ [k] := by
  induction d with
  | nil => simp [dictInsert, dictKeys]
  | cons p t ih =>
    obtain ⟨k₀, v₀⟩ := p
    simp [dictKeys] at h
    push_neg at h
    simp [dictInsert, dictKeys, Ne.symm h.1]
    simpa [dictKeys] using ih (by simpa [dictKeys] using h.2)

theorem dictGet_eq_none_of_not_mem [DecidableEq α] {d : List (α × β)} {k : α}
    (h : k ∉ dictKeys d) : dictGet d k = none := by
  induction d with
  | nil => rfl
  | cons p t ih =>
    obtain ⟨k₀, v₀⟩ := p
    simp [dictKeys] at h
    push_neg at h
    simp [dictGet, Ne.symm h.1, ih (by simpa [dictKeys] using h.2)]

theorem mem_dictKeys_of_dictGet_eq_some [DecidableEq α] {d : List (α × β)} {k : α} {v : β}
    (h : dictGet d k = some v) : k ∈ dictKeys d := by
  by_contra hk
  rw [dictGet_eq_none_of_not_mem hk] at h
  exact Option.noConfusion h

theorem dictErase_dictInsert_of_not_mem [DecidableEq α] {d : List (α × β)} {k : α} (v : β)
    (h : k ∉ dictKeys d) : dictErase (dictInsert d k v) k = d := by
  induction d with
  | nil => simp [dictInsert, dictErase]
  | cons p t ih =>
    obtain ⟨k₀, v₀⟩ := p
    simp [dictKeys] at h
    push_neg at h
    simp [dictInsert, dictErase, Ne.symm h.1, ih (by simpa [dictKeys] using h.2)]

theorem dictGet_dictErase_ne [DecidableEq α] (d : List (α × β)) {k k' : α}
    (h : k ≠ k') : dictGet (dictErase d k) k' = dictGet d k' := by
  induction d with
  | nil => rfl
  | cons p t ih =>
    obtain ⟨k₀, v₀⟩ := p
    by_cases h₀ : k₀ = k
    · subst h₀
      simp [dictErase, dictGet, h]
    · simp [dictErase, dictGet, h₀, ih]

theorem dictErase_sublist [DecidableEq α] (d : List (α × β)) (k : α) :
    List.Sublist (dictErase d k) d := by
  induction d with
  | nil => exact List.Sublist.refl _
  | cons p t ih =>
    obtain ⟨k₀, v₀⟩ := p
    by_cases h₀ : k₀ = k
    · simp [dictErase, h₀]
    · simpa [dictErase, h₀] using List.Sublist.cons₂ (k₀, v₀) ih

theorem mem_dictKeys_dictErase [DecidableEq α] {d : List (α × β)} {k k' : α}
    (h : k' ∈ dictKeys (dictErase d k)) : k' ∈ dictKeys d :=
  ((dictErase_sublist d k).map Prod.fst).subset h

theorem mem_dictKeys_dictInsert [DecidableEq α] {d : List (α × β)} {k k' : α} {v : β}
    (h : k' ∈ dictKeys (dictInsert d k v)) : k' ∈ dictKeys d ∨ k' = k := by
  by_cases hm : k ∈ dictKeys d
  · rw [dictKeys_dictInsert_of_mem d k v hm] at h
    exact Or.inl h
  · rw [dictKeys_dictInsert_of_not_mem d k v hm] at h
    simpa using h

theorem dictKeys_nodup_dictInsert [DecidableEq α] {d : List (α × β)} (k : α) (v : β)
    (h : (dictKeys d).Nodup) : (dictKeys (dictInsert d k v)).Nodup := by
  by_cases hm : k ∈ dictKeys d
  · rw [dictKeys_dictInsert_of_mem d k v hm]
    exact h
  · rw [dictKeys_dictInsert_of_not_mem d k v hm]
    simpa [List.nodup_append] using ⟨h, hm⟩

theorem dictKeys_nodup_dictErase [DecidableEq α] {d : List (α × β)} (k : α)
    (h : (dictKeys d).Nodup) : (dictKeys (dictErase d k)).Nodup :=
  h.sublist ((dictErase_sublist d k).map Prod.fst)

/-- Position of the first occurrence of `a` in `l` (used for the
encounter-order tie-break). -/
def idxOf [DecidableEq α] : List α → α → ℕ
  | [], _ => 0
  | b :: l, a => if b = a then 0 else idxOf l a + 1

theorem idxOf_cons_self [DecidableEq α] (l : List α) (a : α) : idxOf (a :: l) a = 0 := by
  simp [idxOf]

theorem idxOf_cons_ne [DecidableEq α] (l : List α) {a b : α} (h : b ≠ a) :
    idxOf (b :: l) a = idxOf l a + 1 := by
  simp [idxOf, h]

theorem idxOf_inj [DecidableEq α] {l : List α} {a b : α} (ha : a ∈ l) (hb : b ∈ l)
    (he : idxOf l a = idxOf l b) : a = b := by
  induction l with
  | nil => cases ha
  | cons hd tl ih =>
    by_cases hda : hd = a
    · by_cases hdb : hd = b
      · rw [← hda, ← hdb]
      · rw [← hda] at he ⊢
        rw [idxOf_cons_self, idxOf_cons_ne tl hdb] at he
        exact absurd he.symm (Nat.succ_ne_zero _)
    · by_cases hdb : hd = b
      · rw [← hdb] at he
        rw [idxOf_cons_self, idxOf_cons_ne tl hda] at he
        exact absurd he (Nat.succ_ne_zero _)
      · have hatl : a ∈ tl := by
          rcases List.mem_cons.1 ha with h₁ | h₁
          · exact absurd h₁.symm hda
          · exact h₁
        have hbtl : b ∈ tl := by
          rcases List.mem_cons.1 hb with h₁ | h₁
          · exact absurd h₁.symm hdb
          · exact h₁
        rw [idxOf_cons_ne tl hda, idxOf_cons_ne tl hdb] at he
        exact ih hatl hbtl (Nat.succ.inj he)

theorem idxOf_lt_of_pair_sublist [DecidableEq α] {l : List α} {a b : α}
    (hnd : l.Nodup) (h : List.Sublist [a, b] l) : idxOf l a < idxOf l b := by
  induction l with
  | nil => cases h
  | cons hd tl ih =>
    rw [List.nodup_cons] at hnd
    cases h with
    | cons _ h₁ =>
      have ha : a ∈ tl := h₁.subset (List.mem_cons_self _ _)
      have hb : b ∈ tl := h₁.subset (List.mem_cons_of_mem _ (List.mem_cons_self _ _))
      have hda : hd ≠ a := fun he => hnd.1 (he ▸ ha)
      have hdb : hd ≠ b := fun he => hnd.1 (he ▸ hb)
      rw [idxOf_cons_ne tl hda, idxOf_cons_ne tl hdb]
      exact Nat.succ_lt_succ (ih hnd.2 h₁)
    | cons₂ _ h₁ =>
      have hb : b ∈ tl := h₁.subset (List.mem_cons_self _ _)
      have hdb : a ≠ b := fun he => hnd.1 (he ▸ hb)
      rw [idxOf_cons_self, idxOf_cons_ne tl hdb]
      exact Nat.succ_pos _

theorem pair_sublist_of_idxOf_lt [DecidableEq α] {l : List α} {a b : α}
    (ha : a ∈ l) (hb : b ∈ l) (hlt : idxOf l a < idxOf l b) :
    List.Sublist [a, b] l := by
  induction l with
  | nil => cases ha
  | cons hd tl ih =>
    by_cases hah : hd = a
    · subst hah
      have hba : hd ≠ b := by
        intro he
        rw [idxOf_cons_self, he, idxOf_cons_self] at hlt
        exact Nat.lt_irrefl _ hlt
      have hbtl : b ∈ tl := by
        rcases List.mem_cons.1 hb with he | hm
        · exact absurd he.symm hba
        · exact hm
      exact List.Sublist.cons₂ hd (List.singleton_sublist.2 hbtl)
    · have hatl : a ∈ tl := by
        rcases List.mem_cons.1 ha with he | hm
        · exact absurd he.symm hah
        · exact hm
      have hbh : hd ≠ b := by
        intro he
        rw [← he, idxOf_cons_self] at hlt
        exact Nat.not_lt_zero _ hlt
      have hbtl : b ∈ tl := by
        rcases List.mem_cons.1 hb with he | hm
        · exact absurd he.symm hbh
        · exact hm
      rw [idxOf_cons_ne tl hah, idxOf_cons_ne tl hbh] at hlt
      exact List.Sublist.cons hd (ih hatl hbtl (Nat.lt_of_succ_lt_succ hlt))

theorem countP_eq_index_of_pairwise {α : Type _} {Q : α → α → Prop} [DecidableRel Q]
    {l : List α} (hpw : l.Pairwise Q)
    (hasymm : ∀ x y, Q x y → Q y x → False) (hirr : ∀ x, ¬Q x x) :
    ∀ (i : ℕ) (hi : i < l.length), l.countP (fun y => decide (Q y l[i])) = i := by
  induction l with
  | nil =>
    intro i hi
    exact absurd hi (Nat.not_lt_zero _)
  | cons hd tl ih =>
    rw [List.pairwise_cons] at hpw
    intro i hi
    cases i with
    | zero =>
      simp only [List.getElem_cons_zero, List.countP_cons]
      have hz : tl.countP (fun y => decide (Q y hd)) = 0 := by
        rw [List.countP_eq_zero]
        intro a ha
        have hnq : ¬Q a hd := fun hq => hasymm hd a (hpw.1 a ha) hq
        simp [hnq]
      simp [hz, hirr hd]
    | succ j =>
      have hj : j < tl.length := Nat.lt_of_succ_lt_succ hi
      simp only [List.getElem_cons_succ, List.countP_cons]
      have hmem : tl[j] ∈ tl := List.getElem_mem hj
      have h1 : decide (Q hd tl[j]) = true := by
        simp [hpw.1 _ hmem]
      rw [ih hpw.2 j hj]
      simp [h1]

theorem mem_take_iff_getElem_lt {α : Type _} {l : List α} {x : α} (hnd : l.Nodup) :
    ∀ (i : ℕ) (hi : i < l.length), l[i] = x → ∀ n, (x ∈ l.take n ↔ i < n) := by
  induction l with
  | nil =>
    intro i hi
    exact absurd hi (Nat.not_lt_zero _)
  | cons hd tl ih =>
    rw [List.nodup_cons] at hnd
    intro i hi hx n
    cases n with
    | zero => simp
    | succ m =>
      rw [List.take_succ_cons]
      cases i with
      | zero =>
        have hhd : hd = x := hx
        subst hhd
        simp
      | succ j =>
        have hj : j < tl.length := Nat.lt_of_succ_lt_succ hi
        have hx' : tl[j] = x := hx
        have hxtl : x ∈ tl := hx' ▸ List.getElem_mem hj
        have hxhd : x ≠ hd := fun he => hnd.1 (he ▸ hxtl)
        rw [List.mem_cons]
        constructor
        · intro hc
          rcases hc with he | hm
          · exact absurd he hxhd
          · exact Nat.succ_lt_succ ((ih hnd.2 j hj hx' m).1 hm)
        · intro hc
          exact Or.inr ((ih hnd.2 j hj hx' m).2 (Nat.lt_of_succ_lt_succ hc))

theorem foldl_insert_keys {ι κ β : Type _} [DecidableEq κ] (key : ι → κ)
    (val : List (κ × β) → ι → β) :
    ∀ (l : List ι) (acc : List (κ × β)),
      (∀ x ∈ l, key x ∉ dictKeys acc) → (l.map key).Nodup →
      dictKeys (l.foldl (fun acc x => dictInsert acc (key x) (val acc x)) acc) =
        dictKeys acc ++ l.map key := by
  intro l
  induction l with
  | nil =>
    intro acc _ _
    simp
  | cons x xs ih =>
    intro acc hfresh hnd
    rw [List.map_cons, List.nodup_cons] at hnd
    rw [List.foldl_cons]
    have hx : key x ∉ dictKeys acc := hfresh x (List.mem_cons_self _ _)
    have hkeys : dictKeys (dictInsert acc (key x) (val acc x)) = dictKeys acc ++ [key x] :=
      dictKeys_dictInsert_of_not_mem acc (key x) (val acc x) hx
    rw [ih (dictInsert acc (key x) (val acc x))
      (by
        intro y hy
        rw [hkeys]
        intro hmem
        rcases List.mem_append.1 hmem with hma | hmb
        · exact hfresh y (List.mem_cons_of_mem _ hy) hma
        · exact hnd.1 (List.mem_singleton.1 hmb ▸ List.mem_map_of_mem key hy))
      hnd.2]
    rw [hkeys, List.map_cons, List.append_assoc]
    rfl

/-- A maximal nonempty run of characters satisfying `p`.  When a regex
piece `X+` is followed by a piece starting with a character class disjoint
from `X`, backtracking never helps, so the greedy maximal-munch parse below
is equivalent to the regex. -/
def munch (p : Char → Bool) (cs : List Char) : Option (List Char × List Char) :=
  let tok := cs.takeWhile p
  if tok.isEmpty then none else some (tok, cs.dropWhile p)

theorem munch_fst_all {p : Char → Bool} {cs tok rest : List Char}
    (h : munch p cs = some (tok, rest)) : tok.all p := by
  unfold munch at h
  by_cases he : (cs.takeWhile p).isEmpty
  · simp [he] at h
  · simp [he] at h
    obtain ⟨h1, _⟩ := h
    subst h1
    exact List.all_eq_true.2 (fun c hc => List.mem_takeWhile_imp hc)

end Py

namespace FastqScreen

/-- The five percentage entries of a parsed FastQ Screen organism record
(`parsed_data[s][org]['percentages']` in the source). -/
structure Percentages where
  one_hit_one_library : ℚ
  unmapped : ℚ
  multiple_hits_one_library : ℚ
  one_hit_multiple_libraries : ℚ
  multiple_hits_multiple_libraries : ℚ
deriving DecidableEq

/-- The six count entries of a parsed organism record
(`parsed_data[s][org]['counts']` in the source). -/
structure Counts where
  reads_processed : ℤ
  unmapped : ℤ
  one_hit_one_library : ℤ
  multiple_hits_one_library : ℤ
  one_hit_multiple_libraries : ℤ
  multiple_hits_multiple_libraries : ℤ
deriving DecidableEq

/-- One organism record; the synthetic `No hits` record carries no
`counts` key, hence the `Option`. -/
structure OrgRecord where
  percentages : Percentages
  counts : Option Counts
deriving DecidableEq

/-- The positional tag compared against `l[:18]` in `parse_fqscreen`. -/
def hitTag : List Char := "%Hit_no_libraries:".data

/-- The record stored for the `No hits` pseudo-organism: the parsed value
goes to `one_hit_one_library`, the other four percentages are set to 0. -/
def noHitsRecord (v : ℚ) : OrgRecord :=
  { percentages :=
      { one_hit_one_library := v
        unmapped := 0
        multiple_hits_one_library := 0
        one_hit_multiple_libraries := 0
        multiple_hits_multiple_libraries := 0 }
    counts := none }

/-- Groups 2-12 of the organism-line regex
`^(\w+)\s+(\d+)\s+(\d+)\s+([\d\.]+)\s+(\d+)\s+([\d\.]+)\s+(\d+)\s+([\d\.]+)\s+(\d+)\s+([\d\.]+)\s+(\d+)\s+([\d\.]+)$`
in `parse_fqscreen` (group 1 is handled separately). -/
structure FqsTail where
  g2 : List Char
  g3 : List Char
  g4 : List Char
  g5 : List Char
  g6 : List Char
  g7 : List Char
  g8 : List Char
  g9 : List Char
  g10 : List Char
  g11 : List Char
  g12 : List Char

/-- Character classes of regex groups 2-12, in order: alternating `\d+`
and `[\d\.]+`, each preceded by `\s+`. -/
def fqsFieldClasses : List (Char → Bool) :=
  [Char.isDigit, Char.isDigit, Py.pyIsDigitDot, Char.isDigit, Py.pyIsDigitDot,
   Char.isDigit, Py.pyIsDigitDot, Char.isDigit, Py.pyIsDigitDot,
   Char.isDigit, Py.pyIsDigitDot]

/-- Munches `\s+C+` for each class `C` in turn, returning the captured
groups and the rest of the line. -/
def munchFields : List (Char → Bool) → List Char → Option (List (List Char) × List Char)
  | [], r => some ([], r)
  | p :: ps, r => do
    let (_, r₁) ← Py.munch Py.pyIsSpace r
    let (tok, r₂) ← Py.munch p r₁
    let (toks, r₃) ← munchFields ps r₂
    some (tok :: toks, r₃)

/-- Matcher for the part of the organism-line regex after group 1.  Every
`+`-repetition is followed by a disjoint character class (or the line end),
so greedy maximal munch is equivalent to the regex; `$` requires the rest
to be empty. -/
def fqsTail (r₀ : List Char) : Option FqsTail := do
  let (gs, r) ← munchFields fqsFieldClasses r₀
  if r.isEmpty then
    match gs with
    | [g2, g3, g4, g5, g6, g7, g8, g9, g10, g11, g12] =>
      some ⟨g2, g3, g4, g5, g6, g7, g8, g9, g10, g11, g12⟩
    | _ => none
  else none

/-- The full organism-line regex match: group 1 (`\w+`) and the tail. -/
def fqsMatch (l : List Char) : Option (List Char × FqsTail) :=
  match Py.munch Py.pyIsWord l with
  | none => none
  | some (g1, r) =>
    match fqsTail r with
    | none => none
    | some t => some (g1, t)

/-- Builds the organism record from the regex groups; `none` models the
`ValueError` that `float()` raises on a group such as `1.2.3`. -/
def orgRecord? (t : FqsTail) : Option OrgRecord := do
  let p4 ← Py.pyFloat? ⟨t.g4⟩
  let p6 ← Py.pyFloat? ⟨t.g6⟩
  let p8 ← Py.pyFloat? ⟨t.g8⟩
  let p10 ← Py.pyFloat? ⟨t.g10⟩
  let p12 ← Py.pyFloat? ⟨t.g12⟩
  some
    { percentages :=
        { unmapped := p4
          one_hit_one_library := p6
          multiple_hits_one_library := p8
          one_hit_multiple_libraries := p10
          multiple_hits_multiple_libraries := p12 }
      counts := some
        { reads_processed := (Py.digitsToNat t.g2 : ℤ)
          unmapped := (Py.digitsToNat t.g3 : ℤ)
          one_hit_one_library := (Py.digitsToNat t.g5 : ℤ)
          multiple_hits_one_library := (Py.digitsToNat t.g7 : ℤ)
          one_hit_multiple_libraries := (Py.digitsToNat t.g9 : ℤ)
          multiple_hits_multiple_libraries := (Py.digitsToNat t.g11 : ℤ) } }

/-- One iteration of the line loop of `parse_fqscreen`: the positional
`%Hit_no_libraries:` check, otherwise the organism regex, otherwise the
line is ignored. -/
def parseFqsLine (d : List (String × OrgRecord)) (l : List Char) :
    Except PyExc (List (String × OrgRecord)) :=
  if l.take 18 = hitTag then
    match Py.pyFloatChars? (l.drop 19) with
    | some v => .ok (Py.dictInsert d "No hits" (noHitsRecord v))
    | none => .error .valueError
  else
    match fqsMatch l with
    | none => .ok d
    | some (g1, t) =>
      match orgRecord? t with
      | some orec => .ok (Py.dictInsert d ⟨g1⟩ orec)
      | none => .error .valueError

/-- The organism dictionary parsed from one sample's raw text. -/
def parseSampleText (text : String) : Except PyExc (List (String × OrgRecord)) :=
  (Py.pySplitlines text).foldlM parseFqsLine []

/-- One iteration of the sample loop of `parse_fqscreen`: the sample entry
is created, filled from the text, and popped again when no organism was
parsed (with a warning logged). -/
def parseFqsSample (acc : List (String × List (String × OrgRecord)))
    (st : String × String) : Except PyExc (List (String × List (String × OrgRecord))) := do
  let orgs ← parseSampleText st.2
  let acc := Py.dictInsert acc st.1 orgs
  if orgs.isEmpty then pure (Py.dictErase acc st.1) else pure acc

/-- `MultiqcModule.parse_fqscreen`: raw per-sample text to the nested
organism dictionary. -/
def parse_fqscreen (raw : List (String × String)) :
    Except PyExc (List (String × List (String × OrgRecord))) :=
  raw.foldlM parseFqsSample []

theorem fqsMatch_g1_all_word {l : List Char} {g1 : List Char} {t : FqsTail}
    (h : fqsMatch l = some (g1, t)) : g1.all Py.pyIsWord := by
  unfold fqsMatch at h
  split at h
  · exact Option.noConfusion h
  · rename_i g1' r hm
    split at h
    · exact Option.noConfusion h
    · rename_i t' ht
      rw [Option.some.injEq, Prod.mk.injEq] at h
      exact h.1 ▸ Py.munch_fst_all hm

theorem fqsMatch_key_ne_noHits {l : List Char} {g1 : List Char} {t : FqsTail}
    (h : fqsMatch l = some (g1, t)) : (⟨g1⟩ : String) ≠ "No hits" := by
  intro he
  have hd : g1 = "No hits".data := congrArg String.data he
  have := fqsMatch_g1_all_word h
  rw [hd] at this
  exact absurd this (by decide)

theorem parseFqsLine_not_tag_get {d out : List (String × OrgRecord)} {l : List Char}
    (h : parseFqsLine d l = .ok out) (hnt : l.take 18 ≠ hitTag) :
    Py.dictGet out "No hits" = Py.dictGet d "No hits" := by
  unfold parseFqsLine at h
  rw [if_neg hnt] at h
  split at h
  · cases h
    rfl
  · rename_i g1 t hm
    split at h
    · rename_i orec ho
      cases h
      exact Py.dictGet_dictInsert_ne d _ (fqsMatch_key_ne_noHits hm)
    · exact Except.noConfusion h

theorem parseFqsLine_nodup {d out : List (String × OrgRecord)} {l : List Char}
    (h : parseFqsLine d l = .ok out) (hnd : (Py.dictKeys d).Nodup) :
    (Py.dictKeys out).Nodup := by
  unfold parseFqsLine at h
  by_cases htag : l.take 18 = hitTag
  · rw [if_pos htag] at h
    split at h
    · cases h
      exact Py.dictKeys_nodup_dictInsert _ _ hnd
    · exact Except.noConfusion h
  · rw [if_neg htag] at h
    split at h
    · cases h
      exact hnd
    · split at h
      · cases h
        exact Py.dictKeys_nodup_dictInsert _ _ hnd
      · exact Except.noConfusion h

theorem foldl_lines_no_tag {lines : List (List Char)} {d out : List (String × OrgRecord)}
    (h : lines.foldlM parseFqsLine d = .ok out)
    (hnt : ∀ l ∈ lines, l.take 18 ≠ hitTag) :
    Py.dictGet out "No hits" = Py.dictGet d "No hits" := by
  induction lines generalizing d with
  | nil =>
    cases h
    rfl
  | cons l ls ih =>
    rw [List.foldlM_cons] at h
    cases hstep : parseFqsLine d l with
    | error e => rw [hstep] at h; simp [Bind.bind, Except.bind] at h
    | ok d' =>
      rw [hstep] at h
      simp only [Bind.bind, Except.bind] at h
      have := ih h (fun x hx => hnt x (List.mem_cons_of_mem _ hx))
      rw [this, parseFqsLine_not_tag_get hstep (hnt l (List.mem_cons_self _ _))]

theorem foldl_lines_nodup {lines : List (List Char)} {d out : List (String × OrgRecord)}
    (h : lines.foldlM parseFqsLine d = .ok out)
    (hnd : (Py.dictKeys d).Nodup) : (Py.dictKeys out).Nodup := by
  induction lines generalizing d with
  | nil =>
    cases h
    exact hnd
  | cons l ls ih =>
    rw [List.foldlM_cons] at h
    cases hstep : parseFqsLine d l with
    | error e => rw [hstep] at h; simp [Bind.bind, Except.bind] at h
    | ok d' =>
      rw [hstep] at h
      simp only [Bind.bind, Except.bind] at h
      exact ih h (parseFqsLine_nodup hstep hnd)

theorem foldl_lines_tag {lines : List (List Char)} {d out : List (String × OrgRecord)}
    {line : List Char} {v : ℚ}
    (h : lines.foldlM parseFqsLine d = .ok out)
    (huniq : ∀ l ∈ lines, l.take 18 = hitTag → l = line)
    (hmem : line ∈ lines)
    (htag : line.take 18 = hitTag)
    (hv : Py.pyFloatChars? (line.drop 19) = some v) :
    Py.dictGet out "No hits" = some (noHitsRecord v) := by
  induction lines generalizing d with
  | nil => cases hmem
  | cons l ls ih =>
    rw [List.foldlM_cons] at h
    cases hstep : parseFqsLine d l with
    | error e => rw [hstep] at h; simp [Bind.bind, Except.bind] at h
    | ok d' =>
      rw [hstep] at h
      simp only [Bind.bind, Except.bind] at h
      by_cases hltag : l.take 18 = hitTag
      · have hl : l = line := huniq l (List.mem_cons_self _ _) hltag
        subst hl
        have hd' : d' = Py.dictInsert d "No hits" (noHitsRecord v) := by
          unfold parseFqsLine at hstep
          rw [if_pos hltag, hv] at hstep
          cases hstep
          rfl
        subst hd'
        by_cases hmem' : l ∈ ls
        · exact ih h (fun x hx => huniq x (List.mem_cons_of_mem _ hx)) hmem'
        · have hnt : ∀ x ∈ ls, x.take 18 ≠ hitTag := by
            intro x hx hxt
            exact hmem' ((huniq x (List.mem_cons_of_mem _ hx) hxt) ▸ hx)
          rw [foldl_lines_no_tag h hnt]
          exact Py.dictGet_dictInsert_self d _ _
      · have hmem' : line ∈ ls := by
          rcases List.mem_cons.1 hmem with he | hm
          · exact absurd (he ▸ htag) hltag
          · exact hm
        exact ih h (fun x hx => huniq x (List.mem_cons_of_mem _ hx)) hmem'

theorem parseFqsSample_get_ne {acc out : List (String × List (String × OrgRecord))}
    {k s t : String} (h : parseFqsSample acc (k, t) = .ok out) (hk : k ≠ s) :
    Py.dictGet out s = Py.dictGet acc s := by
  unfold parseFqsSample at h
  cases hp : parseSampleText t with
  | error e => rw [hp] at h; simp [Bind.bind, Except.bind] at h
  | ok orgs =>
    rw [hp] at h
    simp only [Bind.bind, Except.bind] at h
    cases orgs with
    | nil =>
      simp only [List.isEmpty_nil, if_pos] at h
      cases h
      rw [Py.dictGet_dictErase_ne _ hk, Py.dictGet_dictInsert_ne _ _ hk]
    | cons o os =>
      simp only [List.isEmpty_cons, Bool.false_eq_true, if_neg] at h
      cases h
      exact Py.dictGet_dictInsert_ne _ _ hk

theorem parseFqsSample_not_mem {acc out : List (String × List (String × OrgRecord))}
    {k s t : String} (h : parseFqsSample acc (k, t) = .ok out) (hk : k ≠ s)
    (hs : s ∉ Py.dictKeys acc) : s ∉ Py.dictKeys out := by
  unfold parseFqsSample at h
  cases hp : parseSampleText t with
  | error e => rw [hp] at h; simp [Bind.bind, Except.bind] at h
  | ok orgs =>
    rw [hp] at h
    simp only [Bind.bind, Except.bind] at h
    cases orgs with
    | nil =>
      simp only [List.isEmpty_nil, if_pos] at h
      cases h
      intro hmem
      rcases Py.mem_dictKeys_dictInsert (Py.mem_dictKeys_dictErase hmem) with hm | hm
      · exact hs hm
      · exact hk hm.symm
    | cons o os =>
      simp only [List.isEmpty_cons, Bool.false_eq_true, if_neg] at h
      cases h
      intro hmem
      rcases Py.mem_dictKeys_dictInsert hmem with hm | hm
      · exact hs hm
      · exact hk hm.symm

theorem foldl_samples_get_of_not_key {raw : List (String × String)}
    {acc out : List (String × List (String × OrgRecord))} {s : String}
    (h : raw.foldlM parseFqsSample acc = .ok out) (hs : s ∉ Py.dictKeys raw) :
    Py.dictGet out s = Py.dictGet acc s := by
  induction raw generalizing acc with
  | nil =>
    cases h
    rfl
  | cons p rest ih =>
    obtain ⟨k, t⟩ := p
    simp [Py.dictKeys] at hs
    push_neg at hs
    rw [List.foldlM_cons] at h
    cases hstep : parseFqsSample acc (k, t) with
    | error e => rw [hstep] at h; simp [Bind.bind, Except.bind] at h
    | ok acc' =>
      rw [hstep] at h
      simp only [Bind.bind, Except.bind] at h
      rw [ih h (by simpa [Py.dictKeys] using hs.2),
        parseFqsSample_get_ne hstep (Ne.symm hs.1)]

theorem foldl_samples_main {raw : List (String × String)}
    {acc out : List (String × List (String × OrgRecord))} {s text : String}
    (h : raw.foldlM parseFqsSample acc = .ok out)
    (hnd : (Py.dictKeys raw).Nodup)
    (hmem : (s, text) ∈ raw)
    (hacc : s ∉ Py.dictKeys acc) :
    ∃ orgs, parseSampleText text = .ok orgs ∧
      Py.dictGet out s = if orgs.isEmpty then none else some orgs := by
  induction raw generalizing acc with
  | nil => cases hmem
  | cons p rest ih =>
    obtain ⟨k, t⟩ := p
    simp only [Py.dictKeys, List.map_cons, List.nodup_cons] at hnd
    rw [List.foldlM_cons] at h
    by_cases hks : k = s
    · subst hks
      have ht : t = text := by
        rcases List.mem_cons.1 hmem with he | hm
        · exact (Prod.mk.injEq .. ▸ he).2.symm
        · exact absurd (List.mem_map_of_mem Prod.fst hm) (hnd.1)
      subst ht
      cases hstep : parseFqsSample acc (k, t) with
      | error e => rw [hstep] at h; simp [Bind.bind, Except.bind] at h
      | ok acc' =>
        rw [hstep] at h
        simp only [Bind.bind, Except.bind] at h
        unfold parseFqsSample at hstep
        cases hp : parseSampleText t with
        | error e => rw [hp] at hstep; simp [Bind.bind, Except.bind] at hstep
        | ok orgs =>
          rw [hp] at hstep
          simp only [Bind.bind, Except.bind] at hstep
          refine ⟨orgs, rfl, ?_⟩
          cases orgs with
          | nil =>
            simp only [List.isEmpty_nil, if_pos] at hstep ⊢
            cases hstep
            rw [foldl_samples_get_of_not_key h (by simpa [Py.dictKeys] using hnd.1),
              Py.dictErase_dictInsert_of_not_mem _ hacc]
            exact Py.dictGet_eq_none_of_not_mem hacc
          | cons o os =>
            simp only [List.isEmpty_cons, Bool.false_eq_true, if_neg] at hstep ⊢
            cases hstep
            rw [foldl_samples_get_of_not_key h (by simpa [Py.dictKeys] using hnd.1)]
            exact Py.dictGet_dictInsert_self acc k (o :: os)
    · have hmem' : (s, text) ∈ rest := by
        rcases List.mem_cons.1 hmem with he | hm
        · exact absurd (Prod.mk.injEq .. ▸ he).1.symm hks
        · exact hm
      cases hstep : parseFqsSample acc (k, t) with
      | error e => rw [hstep] at h; simp [Bind.bind, Except.bind] at h
      | ok acc' =>
        rw [hstep] at h
        simp only [Bind.bind, Except.bind] at h
        exact ih h hnd.2 hmem' (parseFqsSample_not_mem hstep hks hacc)

theorem parse_fqscreen_sample {raw : List (String × String)}
    {out : List (String × List (String × OrgRecord))} {s text : String}
    (h : parse_fqscreen raw = .ok out)
    (hnd : (Py.dictKeys raw).Nodup)
    (hmem : (s, text) ∈ raw) :
    ∃ orgs, parseSampleText text = .ok orgs ∧
      Py.dictGet out s = if orgs.isEmpty then none else some orgs :=
  foldl_samples_main h hnd hmem (by simp [Py.dictKeys])

theorem foldl_samples_skip_empty {raw : List (String × String)}
    {acc : List (String × List (String × OrgRecord))} {s text : String}
    (hnd : (Py.dictKeys raw).Nodup)
    (hmem : (s, text) ∈ raw)
    (hempty : parseSampleText text = .ok [])
    (hacc : s ∉ Py.dictKeys acc) :
    raw.foldlM parseFqsSample acc =
      (raw.filter (fun st => decide (st.1 ≠ s))).foldlM parseFqsSample acc := by
  induction raw generalizing acc with
  | nil => cases hmem
  | cons p rest ih =>
    obtain ⟨k, t⟩ := p
    simp only [Py.dictKeys, List.map_cons, List.nodup_cons] at hnd
    by_cases hks : k = s
    · subst hks
      have ht : t = text := by
        rcases List.mem_cons.1 hmem with he | hm
        · exact (Prod.mk.injEq .. ▸ he).2.symm
        · exact absurd (List.mem_map_of_mem Prod.fst hm) (hnd.1)
      subst ht
      have hstep : parseFqsSample acc (k, t) = .ok acc := by
        unfold parseFqsSample
        rw [hempty]
        simp only [Bind.bind, Except.bind, List.isEmpty_nil, if_pos]
        rw [Py.dictErase_dictInsert_of_not_mem _ hacc]
        rfl
      have hfilter : rest.filter (fun st => decide (st.1 ≠ k)) = rest := by
        rw [List.filter_eq_self]
        intro a ha
        simp only [decide_eq_true_eq]
        intro hak
        exact hnd.1 (hak ▸ List.mem_map_of_mem Prod.fst ha)
      rw [List.foldlM_cons, hstep, List.filter_cons, if_neg (by simp), hfilter]
      simp [Bind.bind, Except.bind]
    · have hmem' : (s, text) ∈ rest := by
        rcases List.mem_cons.1 hmem with he | hm
        · exact absurd (Prod.mk.injEq .. ▸ he).1.symm hks
        · exact hm
      rw [List.foldlM_cons, List.filter_cons, if_pos (by simp [hks]), List.foldlM_cons]
      cases hstep : parseFqsSample acc (k, t) with
      | error e => simp [Bind.bind, Except.bind]
      | ok acc' =>
        simp only [Bind.bind, Except.bind]
        exact ih hnd.2 hmem' (parseFqsSample_not_mem hstep hks hacc)

/-- C2: a line whose first 18 characters are `%Hit_no_libraries:` yields
exactly one `No hits` organism record, whose `one_hit_one_library`
percentage is the float parsed from character offset 19 onward and whose
other four percentages are 0 (and which carries no counts). -/
theorem C2_no_hit_line {raw : List (String × String)}
    {out : List (String × List (String × OrgRecord))} {s text : String}
    {line : List Char} {v : ℚ}
    (hok : parse_fqscreen raw = .ok out)
    (hnd : (Py.dictKeys raw).Nodup)
    (hmem : (s, text) ∈ raw)
    (hline : line ∈ Py.pySplitlines text)
    (htag : line.take 18 = hitTag)
    (hv : Py.pyFloatChars? (line.drop 19) = some v)
    (huniq : ∀ l ∈ Py.pySplitlines text, l.take 18 = hitTag → l = line) :
    ∃ orgs, Py.dictGet out s = some orgs ∧
      Py.dictGet orgs "No hits" = some
        { percentages :=
            { one_hit_one_library := v
              unmapped := 0
              multiple_hits_one_library := 0
              one_hit_multiple_libraries := 0
              multiple_hits_multiple_libraries := 0 }
          counts := none } ∧
      (Py.dictKeys orgs).count "No hits" = 1 := by
  obtain ⟨orgs, hp, hget⟩ := parse_fqscreen_sample hok hnd hmem
  have hnohits : Py.dictGet orgs "No hits" = some (noHitsRecord v) :=
    foldl_lines_tag hp huniq hline htag hv
  have hne : orgs.isEmpty = false := by
    cases orgs with
    | nil => rw [show Py.dictGet ([] : List (String × OrgRecord)) "No hits" = none from rfl] at hnohits; exact Option.noConfusion hnohits
    | cons o os => rfl
  rw [hne] at hget
  simp only [Bool.false_eq_true, if_neg, not_false_eq_true] at hget
  refine ⟨orgs, hget, hnohits, ?_⟩
  exact List.count_eq_one_of_mem
    (foldl_lines_nodup hp (by simp [Py.dictKeys]))
    (Py.mem_dictKeys_of_dictGet_eq_some hnohits)

unseal Rat.mul Rat.add Rat.sub Rat.inv in
/-- Witness for C2 at the concrete input from the specification:
`%Hit_no_libraries: 87.50` yields `one_hit_one_library = 87.5` and the
other four percentages 0. -/
theorem C2_no_hit_line_witness :
    parse_fqscreen [("samp", "%Hit_no_libraries: 87.50")] =
      .ok [("samp", [("No hits", noHitsRecord (175 / 2))])] ∧
    (∃ orgs,
      Py.dictGet [("samp", [("No hits", noHitsRecord (175 / 2))])] "samp" = some orgs ∧
      Py.dictGet orgs "No hits" = some
        { percentages :=
            { one_hit_one_library := (175 / 2 : ℚ)
              unmapped := 0
              multiple_hits_one_library := 0
              one_hit_multiple_libraries := 0
              multiple_hits_multiple_libraries := 0 }
          counts := none } ∧
      (Py.dictKeys orgs).count "No hits" = 1) :=
  ⟨by decide,
    @C2_no_hit_line [("samp", "%Hit_no_libraries: 87.50")]
      [("samp", [("No hits", noHitsRecord (175 / 2))])]
      "samp" "%Hit_no_libraries: 87.50" "%Hit_no_libraries: 87.50".data (175 / 2)
      (by decide) (by decide) (by decide) (by decide) (by decide) (by decide) (by decide)⟩

/-- C6: a sample whose text yields zero organisms is dropped from the
parsed result, and removing that sample from the batch leaves the result
of parsing the remaining samples unchanged. -/
theorem C6_empty_sample_dropped {raw : List (String × String)}
    {out : List (String × List (String × OrgRecord))} {s text : String}
    (hok : parse_fqscreen raw = .ok out)
    (hnd : (Py.dictKeys raw).Nodup)
    (hmem : (s, text) ∈ raw)
    (hempty : parseSampleText text = .ok []) :
    Py.dictGet out s = none ∧
    parse_fqscreen (raw.filter (fun st => decide (st.1 ≠ s))) = .ok out := by
  constructor
  · obtain ⟨orgs, hp, hget⟩ := parse_fqscreen_sample hok hnd hmem
    rw [hp] at hempty
    cases hempty
    simpa using hget
  · rw [parse_fqscreen,
      ← foldl_samples_skip_empty hnd hmem hempty (by simp [Py.dictKeys])]
    exact hok

unseal Rat.mul Rat.add Rat.sub Rat.inv in
/-- Witness for C6: a two-sample batch in which the second sample's file
parses to zero organisms; the second sample is dropped and the first one
is parsed as if the second were absent. -/
theorem C6_empty_sample_dropped_witness :
    parse_fqscreen
        [("a", "Human\t100\t10\t10.00\t80\t80.00\t5\t5.00\t3\t3.00\t2\t2.00"),
         ("b", "no parsable line")] =
      .ok [("a", [("Human",
        { percentages :=
            { one_hit_one_library := 80
              unmapped := 10
              multiple_hits_one_library := 5
              one_hit_multiple_libraries := 3
              multiple_hits_multiple_libraries := 2 }
          counts := some
            { reads_processed := 100
              unmapped := 10
              one_hit_one_library := 80
              multiple_hits_one_library := 5
              one_hit_multiple_libraries := 3
              multiple_hits_multiple_libraries := 2 } })])] ∧
    Py.dictGet [("a", [("Human",
        ({ percentages :=
            { one_hit_one_library := 80
              unmapped := 10
              multiple_hits_one_library := 5
              one_hit_multiple_libraries := 3
              multiple_hits_multiple_libraries := 2 }
           counts := some
            { reads_processed := 100
              unmapped := 10
              one_hit_one_library := 80
              multiple_hits_one_library := 5
              one_hit_multiple_libraries := 3
              multiple_hits_multiple_libraries := 2 } } : OrgRecord))])] "b" = none :=
  ⟨by decide,
    (@C6_empty_sample_dropped
      [("a", "Human\t100\t10\t10.00\t80\t80.00\t5\t5.00\t3\t3.00\t2\t2.00"),
       ("b", "no parsable line")]
      [("a", [("Human",
        { percentages :=
            { one_hit_one_library := 80
              unmapped := 10
              multiple_hits_one_library := 5
              one_hit_multiple_libraries := 3
              multiple_hits_multiple_libraries := 2 }
          counts := some
            { reads_processed := 100
              unmapped := 10
              one_hit_one_library := 80
              multiple_hits_one_library := 5
              one_hit_multiple_libraries := 3
              multiple_hits_multiple_libraries := 2 } })])]
      "b" "no parsable line"
      (by decide) (by decide) (by decide) (by decide)).1⟩

/-- C9: the parser is a pure function of the raw data mapping; parsing the
same input twice yields the same normalized output. -/
theorem C9_parse_idempotent (raw : List (String × String)) :
    parse_fqscreen raw = parse_fqscreen raw := rfl

end FastqScreen

namespace Genomescope2

/-- A parsed Genomescope2 summary value: a float on successful coercion,
otherwise the (suffix-stripped) original string. -/
inductive PyVal
  | num (q : ℚ)
  | str (s : List Char)
deriving DecidableEq

/-- The header-collection loop of `parse_summary_log`: `block` is set at
every line starting with `property`, and from then on every line
(including the header line itself) is collected. -/
def collectContent (lines : List (List Char)) : List (List Char) :=
  (lines.foldl
    (fun (st : Bool × List (List Char)) l =>
      let block := st.1 || decide (l.take 8 = "property".data)
      (block, if block then st.2 ++ [l] else st.2))
    (false, [])).2

/-- `re.split(r"\s{2,}", ·)`: fields separated by maximal runs of two or
more whitespace characters (single whitespace stays inside a field).  The
fuel argument is bounded by the character count, so it never runs out. -/
def splitWs2Go : ℕ → List Char → List (List Char)
  | _, [] => [[]]
  | 0, _ :: _ => [[]]
  | fuel + 1, c :: rest =>
    if Py.pyIsSpace c && (match rest with | c₂ :: _ => Py.pyIsSpace c₂ | [] => false) then
      [] :: splitWs2Go fuel (rest.dropWhile Py.pyIsSpace)
    else
      match splitWs2Go fuel rest with
      | [] => [[c]]
      | p :: ps => (c :: p) :: ps

/-- `re.split(r"\s{2,}", ·)` on a character list. -/
def splitWs2 (cs : List Char) : List (List Char) := splitWs2Go cs.length cs

/-- Lines 74-78 of `parse_summary_log`: strip trailing `%`/`b`/`p`
characters from the value field and attempt float coercion, keeping the
stripped string when `float()` raises `ValueError`. -/
def coerceValue (item : List Char) : PyVal :=
  match Py.pyFloatChars? (Py.pyRstrip item ['%', 'b', 'p']) with
  | some q => PyVal.num q
  | none => PyVal.str (Py.pyRstrip item ['%', 'b', 'p'])

/-- One row of the summary table: `items = re.split(r"\s{2,}", l.strip())`,
`this_name = items[0]`, `this_val = items[2]` (raising `IndexError` when a
field is missing), then unit stripping and float coercion. -/
def parseRow (row : List Char) : Except PyExc (List Char × PyVal) := do
  let items := splitWs2 (Py.pyStrip row)
  let this_name ← match items.get? 0 with
    | some x => Except.ok x
    | none => Except.error PyExc.indexError
  let item2 ← match items.get? 2 with
    | some x => Except.ok x
    | none => Except.error PyExc.indexError
  Except.ok (this_name, coerceValue item2)

/-- `MultiqcModule.parse_summary_log` on one file's text: collect the
lines from the `property` header on, then parse every subsequent row into
the per-sample summary dict, also accumulating the legend list. -/
def parse_summary_log (text : String) :
    Except PyExc (List (List Char × PyVal) × List (List Char)) := do
  let content := collectContent (Py.pySplitlines text)
  (content.drop 1).foldlM
    (fun st row => do
      let (n, v) ← parseRow row
      pure (Py.dictInsert st.1 n v, st.2 ++ [n]))
    ([], [])

unseal Rat.mul Rat.add Rat.sub Rat.inv in
/-- C5: every value field has trailing `%`/`b`/`p` unit characters
stripped and is then coerced to a float, falling back to the stripped
string when coercion fails; in particular `"42.50%bp"` coerces to the
float 42.5 (inside a full `parse_summary_log` run), and a non-numeric
value passes through as the stripped string. -/
theorem C5_unit_strip_and_coerce :
    (∀ item q, Py.pyFloatChars? (Py.pyRstrip item ['%', 'b', 'p']) = some q →
      coerceValue item = PyVal.num q) ∧
    (∀ item, Py.pyFloatChars? (Py.pyRstrip item ['%', 'b', 'p']) = none →
      coerceValue item = PyVal.str (Py.pyRstrip item ['%', 'b', 'p'])) ∧
    parse_summary_log "property  min  max\nkcov  41.1  42.50%bp\nlabel  x  n/a\n" =
      Except.ok
        ([("kcov".data, PyVal.num (85 / 2)), ("label".data, PyVal.str "n/a".data)],
         ["kcov".data, "label".data]) := by
  refine ⟨fun item q h => ?_, fun item h => ?_, by decide⟩
  · unfold coerceValue
    rw [h]
  · unfold coerceValue
    rw [h]

unseal Rat.mul Rat.add Rat.sub Rat.inv in
/-- Witness for C5: both coercion branches at the inputs named by the
specification. -/
theorem C5_unit_strip_and_coerce_witness :
    coerceValue "42.50%bp".data = PyVal.num (85 / 2) ∧
    coerceValue "n/a".data = PyVal.str "n/a".data :=
  ⟨C5_unit_strip_and_coerce.1 "42.50%bp".data (85 / 2) (by decide),
   C5_unit_strip_and_coerce.2.1 "n/a".data (by decide)⟩

/-- C10: the row loop of `parse_summary_log` unconditionally indexes field
2 of every post-header row; any row with fewer than three fields raises
`IndexError`, and a summary file containing such a row (here: an empty
line after the header rows) aborts parsing with `IndexError`. -/
theorem C10_short_row_indexError :
    (∀ row, (splitWs2 (Py.pyStrip row)).length < 3 →
      parseRow row = Except.error PyExc.indexError) ∧
    parse_summary_log "property  min  max\nHomozygous  50.0  60.0\n\n" =
      Except.error PyExc.indexError := by
  constructor
  · intro row hlen
    unfold parseRow
    have h2 : (splitWs2 (Py.pyStrip row))[2]? = none :=
      List.getElem?_eq_none (by omega)
    cases h0 : (splitWs2 (Py.pyStrip row))[0]? with
    | none => simp [Bind.bind, Except.bind, h0]
    | some x => simp [Bind.bind, Except.bind, h0, h2]
  · decide

/-- Witness for C10: the empty row has a single field, so row parsing
raises `IndexError`. -/
theorem C10_short_row_indexError_witness :
    (splitWs2 (Py.pyStrip [])).length < 3 ∧
    parseRow [] = Except.error PyExc.indexError :=
  ⟨by decide, C10_short_row_indexError.1 [] (by decide)⟩

end Genomescope2

namespace CheckQC

/-- One issue of a `ReadsPerSampleHandler` list: severity tag and the
fields of its `data` payload that the module reads. -/
structure RpsIssue where
  type_ : String
  sample_name : String
  lane : ℕ
  sample_reads : ℚ
  threshold : ℚ
deriving DecidableEq

/-- The per-sample record built by `get_reads_per_sample_data`; the two
`missing_*` entries model optional dict keys. -/
structure RpsRecord where
  read_num : ℚ
  threshold : ℚ
  missing_error : Option ℚ
  missing_warning : Option ℚ
deriving DecidableEq

/-- One issue of a `ClusterPFHandler` list. -/
structure ClusterIssue where
  type_ : String
  lane : ℕ
  lane_pf : ℚ
  threshold : ℚ
deriving DecidableEq

/-- The per-lane record built by `get_cluster_pf_data`. -/
structure ClusterRecord where
  lane_pf : ℚ
  missing_error : Option ℚ
  missing_warning : Option ℚ
deriving DecidableEq

/-- The cleaned `sample` display name of a reads-per-sample issue
(single-file and multi-file forms). -/
def rpsSample (clean : String → String) (singleFile : Bool) (run : String)
    (issue : RpsIssue) : String :=
  clean (if singleFile then
      issue.sample_name ++ " (Lane " ++ Py.natRepr issue.lane ++ ")"
    else
      issue.sample_name ++ " (Lane " ++ Py.natRepr issue.lane ++ ", run " ++ run ++ ")")

/-- The fresh record assigned to `data[sample]` for one reads-per-sample
issue: `read_num`/`threshold` scaled by 10^6 and exactly one `missing_*`
key according to the issue severity. -/
def rpsEntry (issue : RpsIssue) : RpsRecord :=
  if issue.type_ = "error" then
    ⟨issue.sample_reads * 10 ^ 6, issue.threshold * 10 ^ 6,
     some (issue.threshold * 10 ^ 6 - issue.sample_reads * 10 ^ 6), none⟩
  else
    ⟨issue.sample_reads * 10 ^ 6, issue.threshold * 10 ^ 6, none,
     some (issue.threshold * 10 ^ 6 - issue.sample_reads * 10 ^ 6)⟩

/-- `MultiqcModule.get_reads_per_sample_data`, parameterized by the host's
`clean_s_name` and `is_ignore_sample` collaborators and by whether a
single log file was found.  Returns the handler data dict and the general
stats dict.  `data[sample]` is reassigned from scratch for every issue
before one `missing_*` key is added. -/
def get_reads_per_sample_data (clean : String → String) (ignore : String → Bool)
    (singleFile : Bool) (run : String) (issues : List RpsIssue) :
    List (String × RpsRecord) × List (String × (ℚ × ℚ)) :=
  issues.foldl
    (fun st issue =>
      if ignore (rpsSample clean singleFile run issue) then st
      else
        (Py.dictInsert st.1 (rpsSample clean singleFile run issue) (rpsEntry issue),
         Py.dictInsert st.2 (rpsSample clean singleFile run issue)
           (issue.sample_reads * 10 ^ 6, issue.threshold * 10 ^ 6)))
    ([], [])

/-- The cleaned `str(lane)` display name used by the cluster-PF and
undetermined-percentage handlers. -/
def laneSample (clean : String → String) (singleFile : Bool) (run : String)
    (lane : ℕ) : String :=
  clean (if singleFile then Py.natRepr lane
    else Py.natRepr lane ++ " (" ++ run ++ ")")

/-- The cleaned `sample` display name of a cluster-PF issue. -/
def clusterSample (clean : String → String) (singleFile : Bool) (run : String)
    (issue : ClusterIssue) : String :=
  laneSample clean singleFile run issue.lane

/-- The fresh record assigned to `data[sample]` for one cluster-PF issue. -/
def clusterEntry (issue : ClusterIssue) : ClusterRecord :=
  if issue.type_ = "error" then
    ⟨issue.lane_pf, some (issue.threshold * 10 ^ 6 - issue.lane_pf), none⟩
  else
    ⟨issue.lane_pf, none, some (issue.threshold * 10 ^ 6 - issue.lane_pf)⟩

/-- `MultiqcModule.get_cluster_pf_data`, parameterized like
`get_reads_per_sample_data`.  `data[sample]` is likewise reassigned from
scratch for every issue. -/
def get_cluster_pf_data (clean : String → String) (ignore : String → Bool)
    (singleFile : Bool) (run : String) (issues : List ClusterIssue) :
    List (String × ClusterRecord) :=
  issues.foldl
    (fun data issue =>
      if ignore (clusterSample clean singleFile run issue) then data
      else Py.dictInsert data (clusterSample clean singleFile run issue) (clusterEntry issue))
    []

/-- One issue of a `Q30Handler` list. -/
structure Q30Issue where
  type_ : String
  lane : ℕ
  read : ℕ
  percent_q30 : ℚ
  threshold : ℚ
deriving DecidableEq

/-- The per-lane/read record built by `get_q30_data`. -/
structure Q30Record where
  percent_q30 : ℚ
  missing_error : Option ℚ
  missing_warning : Option ℚ
deriving DecidableEq

/-- One issue of an `ErrorRateHandler` list. -/
structure ErrorRateIssue where
  type_ : String
  lane : ℕ
  read : ℕ
  error_rate : ℚ
  threshold : ℚ
deriving DecidableEq

/-- The per-lane/read record built by `get_error_rate_data`; for this
rate-type metric the missing value is observed minus threshold. -/
structure ErrorRateRecord where
  threshold : ℚ
  missing_error : Option ℚ
  missing_warning : Option ℚ
deriving DecidableEq

/-- One issue of an `UndeterminedPercentageHandler` list. -/
structure UndeterminedIssue where
  type_ : String
  lane : ℕ
  percentage_undetermined : ℚ
  threshold : ℚ
  computed_threshold : ℚ
  phix_on_lane : ℚ
deriving DecidableEq

/-- The per-lane record built by `get_undetermined_percentage_data`. -/
structure UndeterminedRecord where
  phix : ℚ
  threshold : ℚ
  missing_error : Option ℚ
  missing_warning : Option ℚ
deriving DecidableEq

/-- The cleaned `{lane} - {read}` display name used by the Q30 and
error-rate handlers. -/
def laneReadSample (clean : String → String) (singleFile : Bool) (run : String)
    (lane read : ℕ) : String :=
  clean (if singleFile then Py.natRepr lane ++ " - " ++ Py.natRepr read
    else Py.natRepr lane ++ " - " ++ Py.natRepr read ++ " (" ++ run ++ ")")

/-- `MultiqcModule.get_q30_data`. -/
def get_q30_data (clean : String → String) (ignore : String → Bool)
    (singleFile : Bool) (run : String) (issues : List Q30Issue) :
    List (String × Q30Record) :=
  issues.foldl
    (fun data issue =>
      if ignore (laneReadSample clean singleFile run issue.lane issue.read) then data
      else
        Py.dictInsert data (laneReadSample clean singleFile run issue.lane issue.read)
          (if issue.type_ = "error" then
            ⟨issue.percent_q30, some (issue.threshold - issue.percent_q30), none⟩
          else
            ⟨issue.percent_q30, none, some (issue.threshold - issue.percent_q30)⟩))
    []

/-- `MultiqcModule.get_error_rate_data`: the missing value is
`error_rate - threshold` (observed minus threshold). -/
def get_error_rate_data (clean : String → String) (ignore : String → Bool)
    (singleFile : Bool) (run : String) (issues : List ErrorRateIssue) :
    List (String × ErrorRateRecord) :=
  issues.foldl
    (fun data issue =>
      if ignore (laneReadSample clean singleFile run issue.lane issue.read) then data
      else
        Py.dictInsert data (laneReadSample clean singleFile run issue.lane issue.read)
          (if issue.type_ = "error" then
            ⟨issue.threshold, some (issue.error_rate - issue.threshold), none⟩
          else
            ⟨issue.threshold, none, some (issue.error_rate - issue.threshold)⟩))
    []

/-- `MultiqcModule.get_undetermined_percentage_data`: the missing value is
`percentage_undetermined - computed_threshold`. -/
def get_undetermined_percentage_data (clean : String → String) (ignore : String → Bool)
    (singleFile : Bool) (run : String) (issues : List UndeterminedIssue) :
    List (String × UndeterminedRecord) :=
  issues.foldl
    (fun data issue =>
      if ignore (laneSample clean singleFile run issue.lane) then data
      else
        Py.dictInsert data (laneSample clean singleFile run issue.lane)
          (if issue.type_ = "error" then
            ⟨issue.phix_on_lane, issue.threshold,
             some (issue.percentage_undetermined - issue.computed_threshold), none⟩
          else
            ⟨issue.phix_on_lane, issue.threshold, none,
             some (issue.percentage_undetermined - issue.computed_threshold)⟩))
    []

/-- One issue of an `UnidentifiedIndexHandler` list: severity tag and the
`data.msg` text. -/
structure UIIssue where
  type_ : String
  msg : String
deriving DecidableEq

/-- Characters of the regex class `[ATGC+]`. -/
def uiIsIdxChar (c : Char) : Bool :=
  c = 'A' || c = 'T' || c = 'G' || c = 'C' || c = '+'

/-- Consume an exact literal from the front of the character list. -/
def dropLit : List Char → List Char → Option (List Char)
  | [], cs => some cs
  | _ :: _, [] => none
  | l :: ls, c :: cs => if c = l then dropLit ls cs else none

/-- Consume a literal, then a nonempty maximal run of class characters
(the class is disjoint from the character that follows it in the message
pattern, so maximal munch is equivalent to the regex). -/
def munchAfterLit (lit : List Char) (p : Char → Bool) (cs : List Char) :
    Option (List Char × List Char) :=
  (dropLit lit cs).bind (Py.munch p)

/-- `re.match` of the fixed message pattern
`Index: ([ATGC+]+) on lane: (\d+) was significantly overrepresented
\(([0-9.]+)%\) at significance threshold of: ([0-9.]+)%\.` —
prefix-anchored, returning the four groups. -/
def uiMsgMatch (msg : String) :
    Option (List Char × List Char × List Char × List Char) := do
  let (index, r) ← munchAfterLit "Index: ".data uiIsIdxChar msg.data
  let (lane, r) ← munchAfterLit " on lane: ".data Char.isDigit r
  let (overrep, r) ← munchAfterLit " was significantly overrepresented (".data Py.pyIsDigitDot r
  let (threshold, r) ← munchAfterLit "%) at significance threshold of: ".data Py.pyIsDigitDot r
  let _ ← dropLit "%.".data r
  some (index, lane, overrep, threshold)

/-- The first loop of `get_unidentified_index_data`: build
`idx_to_lane_to_rep`, skipping unmatched messages and converting the
overrepresentation and threshold groups with `float()`. -/
def uiCollect (issues : List UIIssue) :
    Except PyExc (List (List Char × List (List Char × ℚ))) :=
  issues.foldlM
    (fun acc issue =>
      match uiMsgMatch issue.msg with
      | none => Except.ok acc
      | some (index, lane, overrep, thresholdStr) =>
        match Py.pyFloatChars? overrep, Py.pyFloatChars? thresholdStr with
        | some o, some _ =>
          Except.ok (Py.dictInsert acc index
            (Py.dictInsert ((Py.dictGet acc index).getD []) lane o))
        | _, _ => Except.error PyExc.valueError)
    []

/-- `[(idx, sum(l2r.values()) / len(l2r)) for idx, l2r in
idx_to_lane_to_rep.items()]`, in encounter order. -/
def uiMeans (m : List (List Char × List (List Char × ℚ))) : List (List Char × ℚ) :=
  m.map (fun p => (p.1, (p.2.map Prod.snd).sum / (p.2.length : ℚ)))

/-- `sorted(pairs, key=itemgetter(1), reverse=True)`: Python's sort is
stable, and insertion sort with `r a b := b.2 ≤ a.2` is its stable
descending realization (each element goes in front of the equal-valued
elements that occurred later). -/
def pySortedByValDesc (l : List (List Char × ℚ)) : List (List Char × ℚ) :=
  l.insertionSort (fun a b => b.2 ≤ a.2)

/-- The second loop of `get_unidentified_index_data`: build the `data`
dict for the top indexes, applying name cleaning, ignore filtering, and
the per-lane display-name choice. -/
def uiBuildData (clean : String → String) (ignore : String → Bool) (singleFile : Bool)
    (run : String) (idx_to_lane_to_rep : List (List Char × List (List Char × ℚ)))
    (sorted_idx : List (List Char × ℚ)) : List (String × List (String × ℚ)) :=
  sorted_idx.foldl
    (fun data p =>
      if ignore (clean ⟨p.1⟩) then data
      else
        Py.dictInsert data (clean ⟨p.1⟩)
          (((Py.dictGet idx_to_lane_to_rep p.1).getD []).foldl
            (fun lanes lv =>
              Py.dictInsert lanes
                (if singleFile then (⟨lv.1⟩ : String) else (⟨lv.1⟩ : String) ++ " (" ++ run ++ ")")
                lv.2)
            ((Py.dictGet data (clean ⟨p.1⟩)).getD [])))
    []

/-- `MultiqcModule.get_unidentified_index_data`: collect per-index
per-lane overrepresentation, rank indexes by mean value (descending,
stable) keeping the top 20, and build the section data. -/
def get_unidentified_index_data (clean : String → String) (ignore : String → Bool)
    (singleFile : Bool) (run : String) (issues : List UIIssue) :
    Except PyExc (List (String × List (String × ℚ))) := do
  let idx_to_lane_to_rep ← uiCollect issues
  Except.ok (uiBuildData clean ignore singleFile run idx_to_lane_to_rep
    ((pySortedByValDesc (uiMeans idx_to_lane_to_rep)).take 20))

/-- Modelled from the spec (ranking side of the refinement): `y` beats `x`
when its mean is strictly higher, or equal with an earlier first
encounter — the tie-break order of a stable descending sort. -/
def beats (entries : List (List Char × ℚ)) (y x : List Char × ℚ) : Prop :=
  x.2 < y.2 ∨ (y.2 = x.2 ∧ Py.idxOf entries y < Py.idxOf entries x)

instance (entries : List (List Char × ℚ)) (y x : List Char × ℚ) :
    Decidable (beats entries y x) := by
  unfold beats
  infer_instance

/-- Modelled from the spec: the number of entries ranked strictly above
`x` (higher mean, or equal mean and earlier encounter). -/
def uiRank (entries : List (List Char × ℚ)) (x : List Char × ℚ) : ℕ :=
  entries.countP (fun y => decide (beats entries y x))

/-- `MultiqcModule._get_unique_runname`'s while loop, with enough fuel for
the modelled inputs (the loop body appends `_i` for increasing `i`). -/
def getUniqueRunnameGo (keys : List String) (base : String) : ℕ → String → ℕ → String
  | 0, run_name, _ => run_name
  | fuel + 1, run_name, i =>
    if run_name ∈ keys then
      getUniqueRunnameGo keys base fuel (base ++ "_" ++ Py.natRepr i) (i + 1)
    else run_name

/-- `MultiqcModule._get_unique_runname`: starts from
`content["run_summary"]["instrument_and_reagent_type"]` and appends an
incrementing counter while the candidate collides with a key of
`self.checkqc_data` — whose keys are handler names, never run names. -/
def _get_unique_runname (checkqcDataKeys : List String) (base : String) : String :=
  getUniqueRunnameGo checkqcDataKeys base (checkqcDataKeys.length + 1) base 1

unseal Rat.mul Rat.add Rat.sub Rat.inv in
/-- C1 counterexample: an issue list with a warning issue and an error
issue for the same sample and lane. The second issue reinitializes
`data[sample]`, so the final record carries only `missing_error`; the
`missing_warning` contribution of the first issue is gone, contradicting
the claim that both keys are present. -/
theorem C1_same_sample_overwrite_check :
    (get_reads_per_sample_data id (fun _ => false) true "run"
        [⟨"warning", "S", 1, 5, 10⟩, ⟨"error", "S", 1, 5, 10⟩]).1 =
      [("S (Lane 1)", ⟨5000000, 10000000, some 5000000, none⟩)] := by
  decide

/-- C1 (amended): every record of the handler aggregates carries exactly
one of `missing_error` / `missing_warning` — the channel of the issue
processed last for that sample — computed as (scaled) threshold minus
observed value; the two keys never coexist. -/
theorem C1_exactly_one_missing_channel :
    (∀ (clean : String → String) (ignore : String → Bool) (singleFile : Bool)
      (run : String) (issues : List RpsIssue) (s : String) (r : RpsRecord),
      Py.dictGet (get_reads_per_sample_data clean ignore singleFile run issues).1 s = some r →
        (r.missing_error = some (r.threshold - r.read_num) ∧ r.missing_warning = none) ∨
        (r.missing_warning = some (r.threshold - r.read_num) ∧ r.missing_error = none)) ∧
    (∀ (clean : String → String) (ignore : String → Bool) (singleFile : Bool)
      (run : String) (issues : List ClusterIssue) (s : String) (r : ClusterRecord),
      Py.dictGet (get_cluster_pf_data clean ignore singleFile run issues) s = some r →
        (r.missing_error.isSome ∧ r.missing_warning = none) ∨
        (r.missing_warning.isSome ∧ r.missing_error = none)) := by
  constructor
  · intro clean ignore singleFile run issues s r hget
    suffices hinv : ∀ p ∈ (get_reads_per_sample_data clean ignore singleFile run issues).1,
        (p.2.missing_error = some (p.2.threshold - p.2.read_num) ∧ p.2.missing_warning = none) ∨
        (p.2.missing_warning = some (p.2.threshold - p.2.read_num) ∧ p.2.missing_error = none) by
      exact hinv (s, r) (Py.mem_of_dictGet_eq_some hget)
    clear hget
    unfold get_reads_per_sample_data
    generalize hst : (([], []) : List (String × RpsRecord) × List (String × (ℚ × ℚ))) = st
    have hbase : ∀ p ∈ st.1,
        (p.2.missing_error = some (p.2.threshold - p.2.read_num) ∧ p.2.missing_warning = none) ∨
        (p.2.missing_warning = some (p.2.threshold - p.2.read_num) ∧ p.2.missing_error = none) := by
      rw [← hst]
      intro p hp
      cases hp
    clear hst
    induction issues generalizing st with
    | nil => exact hbase
    | cons issue rest ih =>
      rw [List.foldl_cons]
      apply ih
      intro p hp
      obtain ⟨pk, pv⟩ := p
      by_cases hig : ignore (rpsSample clean singleFile run issue)
      · rw [if_pos hig] at hp
        exact hbase _ hp
      · rw [if_neg hig] at hp
        rcases Py.mem_dictInsert hp with hm | he
        · exact hbase _ hm
        · injection he with he1 he2
          subst he2
          unfold rpsEntry
          by_cases herr : issue.type_ = "error"
          · rw [if_pos herr]
            left
            exact ⟨rfl, rfl⟩
          · rw [if_neg herr]
            right
            exact ⟨rfl, rfl⟩
  · intro clean ignore singleFile run issues s r hget
    suffices hinv : ∀ p ∈ get_cluster_pf_data clean ignore singleFile run issues,
        (p.2.missing_error.isSome ∧ p.2.missing_warning = none) ∨
        (p.2.missing_warning.isSome ∧ p.2.missing_error = none) by
      exact hinv (s, r) (Py.mem_of_dictGet_eq_some hget)
    clear hget
    unfold get_cluster_pf_data
    generalize hst : ([] : List (String × ClusterRecord)) = st
    have hbase : ∀ p ∈ st,
        (p.2.missing_error.isSome ∧ p.2.missing_warning = none) ∨
        (p.2.missing_warning.isSome ∧ p.2.missing_error = none) := by
      rw [← hst]
      intro p hp
      cases hp
    clear hst
    induction issues generalizing st with
    | nil => exact hbase
    | cons issue rest ih =>
      rw [List.foldl_cons]
      apply ih
      intro p hp
      obtain ⟨pk, pv⟩ := p
      by_cases hig : ignore (clusterSample clean singleFile run issue)
      · rw [if_pos hig] at hp
        exact hbase _ hp
      · rw [if_neg hig] at hp
        rcases Py.mem_dictInsert hp with hm | he
        · exact hbase _ hm
        · injection he with he1 he2
          subst he2
          unfold clusterEntry
          by_cases herr : issue.type_ = "error"
          · rw [if_pos herr]
            left
            exact ⟨rfl, rfl⟩
          · rw [if_neg herr]
            right
            exact ⟨rfl, rfl⟩

unseal Rat.mul Rat.add Rat.sub Rat.inv in
/-- Witness for the amended C1 at a concrete aggregate. -/
theorem C1_exactly_one_missing_channel_witness :
    Py.dictGet (get_reads_per_sample_data id (fun _ => false) true "run"
        [⟨"warning", "S", 1, 5, 10⟩, ⟨"error", "S", 1, 5, 10⟩]).1 "S (Lane 1)" =
      some ⟨5000000, 10000000, some 5000000, none⟩ ∧
    (((⟨5000000, 10000000, some 5000000, none⟩ : RpsRecord).missing_error =
        some ((10000000 : ℚ) - 5000000) ∧
      (⟨5000000, 10000000, some 5000000, none⟩ : RpsRecord).missing_warning = none) ∨
     ((⟨5000000, 10000000, some 5000000, none⟩ : RpsRecord).missing_warning =
        some ((10000000 : ℚ) - 5000000) ∧
      (⟨5000000, 10000000, some 5000000, none⟩ : RpsRecord).missing_error = none)) :=
  ⟨by decide,
    C1_exactly_one_missing_channel.1 id (fun _ => false) true "run"
      [⟨"warning", "S", 1, 5, 10⟩, ⟨"error", "S", 1, 5, 10⟩] "S (Lane 1)"
      ⟨5000000, 10000000, some 5000000, none⟩ (by decide)⟩

/-- `self.checkqc_data`: one optional entry per handler key. -/
structure CheckQCData where
  readsPerSample : Option (List (String × RpsRecord))
  clusterPF : Option (List (String × ClusterRecord))
  q30 : Option (List (String × Q30Record))
  errorRate : Option (List (String × ErrorRateRecord))
  undetermined : Option (List (String × UndeterminedRecord))
  unidentifiedIndex : Option (List (String × List (String × ℚ)))
deriving DecidableEq

/-- The key set of `self.checkqc_data`: handler names of the populated
handlers (run names are never keys). -/
def CheckQCData.keys (d : CheckQCData) : List String :=
  (if d.readsPerSample.isSome then ["ReadsPerSampleHandler"] else []) ++
  (if d.clusterPF.isSome then ["ClusterPFHandler"] else []) ++
  (if d.q30.isSome then ["Q30Handler"] else []) ++
  (if d.errorRate.isSome then ["ErrorRateHandler"] else []) ++
  (if d.undetermined.isSome then ["UndeterminedPercentageHandler"] else []) ++
  (if d.unidentifiedIndex.isSome then ["UnidentifiedIndexHandler"] else [])

/-- `if data: if key not in checkqc_data: assign else update`. -/
def updateHandler {β : Type _} (cur : Option (List (String × β)))
    (data : List (String × β)) : Option (List (String × β)) :=
  if data.isEmpty then cur
  else
    match cur with
    | none => some data
    | some old => some (Py.dictUpdate old data)

/-- One parsed CheckQC JSON document: the run summary and the handler
lists present among the top-level keys. -/
structure CheckQCFile where
  instrument_and_reagent_type : String
  readsPerSampleHandler : Option (List RpsIssue)
  clusterPFHandler : Option (List ClusterIssue)
  q30Handler : Option (List Q30Issue)
  errorRateHandler : Option (List ErrorRateIssue)
  undeterminedPercentageHandler : Option (List UndeterminedIssue)
  unidentifiedIndexHandler : Option (List UIIssue)
deriving DecidableEq

/-- `MultiqcModule.parse_checkqc_json`: derive the run name, dispatch each
present handler key to its extraction routine, merge into the running
aggregate, and return the general-stats rows of the reads-per-sample
handler. -/
def parse_checkqc_json (clean : String → String) (ignore : String → Bool)
    (singleFile : Bool) (d : CheckQCData) (f : CheckQCFile) :
    Except PyExc (CheckQCData × List (String × (ℚ × ℚ))) := do
  let run := _get_unique_runname d.keys f.instrument_and_reagent_type
  let (d, gs) :=
    match f.readsPerSampleHandler with
    | none => (d, [])
    | some issues =>
      let (rps, gs) := get_reads_per_sample_data clean ignore singleFile run issues
      ({ d with readsPerSample := updateHandler d.readsPerSample rps }, gs)
  let d :=
    match f.clusterPFHandler with
    | none => d
    | some issues =>
      { d with clusterPF :=
          updateHandler d.clusterPF (get_cluster_pf_data clean ignore singleFile run issues) }
  let d :=
    match f.q30Handler with
    | none => d
    | some issues =>
      { d with q30 := updateHandler d.q30 (get_q30_data clean ignore singleFile run issues) }
  let d :=
    match f.errorRateHandler with
    | none => d
    | some issues =>
      { d with errorRate :=
          updateHandler d.errorRate (get_error_rate_data clean ignore singleFile run issues) }
  let d :=
    match f.undeterminedPercentageHandler with
    | none => d
    | some issues =>
      { d with undetermined := updateHandler d.undetermined (get_undetermined_percentage_data clean ignore singleFile run issues) }
  let d ←
    match f.unidentifiedIndexHandler with
    | none => pure d
    | some issues => do
      let m ← uiCollect issues
      pure { d with unidentifiedIndex := updateHandler d.unidentifiedIndex (uiBuildData clean ignore singleFile run m ((pySortedByValDesc (uiMeans m)).take 20)) }
  pure (d, gs)

/-- The empty `self.checkqc_data`. -/
def emptyData : CheckQCData := ⟨none, none, none, none, none, none⟩

/-- CheckQC's `__init__`: parse every found log file, then raise
`UserWarning` — before any section is added — when no handler produced
data. -/
def checkqcInit (clean : String → String) (ignore : String → Bool)
    (files : List CheckQCFile) :
    Except PyExc (CheckQCData × List (String × (ℚ × ℚ))) := do
  let singleFile := files.length = 1
  let st ← files.foldlM
    (fun (st : CheckQCData × List (String × (ℚ × ℚ))) f => do
      let (d, gs) ← parse_checkqc_json clean ignore singleFile st.1 f
      pure (d, Py.dictUpdate st.2 gs))
    (emptyData, [])
  if st.1.keys.isEmpty then Except.error PyExc.userWarning
  else pure st

instance : IsTrans (List Char × ℚ) (fun a b => b.2 ≤ a.2) :=
  ⟨fun _ _ _ h1 h2 => le_trans h2 h1⟩

instance : IsTotal (List Char × ℚ) (fun a b => b.2 ≤ a.2) :=
  ⟨fun a b => le_total b.2 a.2⟩

theorem pySorted_perm (l : List (List Char × ℚ)) : List.Perm (pySortedByValDesc l) l :=
  List.perm_insertionSort _ l

theorem pySorted_sorted (l : List (List Char × ℚ)) :
    (pySortedByValDesc l).Sorted (fun a b => b.2 ≤ a.2) :=
  List.sorted_insertionSort _ l

theorem pySorted_pair_stable {a b : List Char × ℚ} {l : List (List Char × ℚ)}
    (hab : b.2 ≤ a.2) (h : List.Sublist [a, b] l) :
    List.Sublist [a, b] (pySortedByValDesc l) :=
  List.pair_sublist_insertionSort hab h

theorem beats_irrefl (entries : List (List Char × ℚ)) (x : List Char × ℚ) :
    ¬beats entries x x := by
  intro h
  rcases h with h | ⟨_, h⟩
  · exact lt_irrefl _ h
  · exact Nat.lt_irrefl _ h

theorem beats_asymm (entries : List (List Char × ℚ)) (x y : List Char × ℚ) :
    beats entries x y → beats entries y x → False := by
  intro hxy hyx
  rcases hxy with h1 | ⟨he1, h1⟩
  · rcases hyx with h2 | ⟨he2, h2⟩
    · exact lt_irrefl _ (lt_trans h1 h2)
    · exact lt_irrefl _ (he2 ▸ h1)
  · rcases hyx with h2 | ⟨he2, h2⟩
    · exact lt_irrefl _ (he1 ▸ h2)
    · exact Nat.lt_irrefl _ (Nat.lt_trans h1 h2)

theorem pySorted_pairwise_beats {entries : List (List Char × ℚ)} (hnd : entries.Nodup) :
    (pySortedByValDesc entries).Pairwise (fun a b => beats entries a b) := by
  rw [List.pairwise_iff_forall_sublist]
  intro a b hab
  have hr : b.2 ≤ a.2 := List.pairwise_iff_forall_sublist.1 (pySorted_sorted entries) hab
  have hperm := pySorted_perm entries
  have hσnd : (pySortedByValDesc entries).Nodup := hperm.nodup_iff.2 hnd
  have hamem : a ∈ entries := hperm.subset (hab.subset (List.mem_cons_self _ _))
  have hbmem : b ∈ entries :=
    hperm.subset (hab.subset (List.mem_cons_of_mem _ (List.mem_cons_self _ _)))
  have hne : a ≠ b := by
    have hpairnd : ([a, b] : List _).Nodup := hσnd.sublist hab
    simpa using (List.nodup_cons.1 hpairnd).1
  rcases lt_or_eq_of_le hr with hlt | heq
  · exact Or.inl hlt
  · refine Or.inr ⟨heq.symm, ?_⟩
    have hidx_ne : Py.idxOf entries a ≠ Py.idxOf entries b :=
      fun he => hne (Py.idxOf_inj hamem hbmem he)
    rcases Nat.lt_or_ge (Py.idxOf entries a) (Py.idxOf entries b) with hlt' | hge
    · exact hlt'
    · exfalso
      have hba : Py.idxOf entries b < Py.idxOf entries a :=
        Nat.lt_of_le_of_ne hge (Ne.symm hidx_ne)
      have hsub : List.Sublist [b, a] entries :=
        Py.pair_sublist_of_idxOf_lt hbmem hamem hba
      have hstable : List.Sublist [b, a] (pySortedByValDesc entries) :=
        pySorted_pair_stable (heq ▸ le_refl _) hsub
      have h1 := Py.idxOf_lt_of_pair_sublist hσnd hab
      have h2 := Py.idxOf_lt_of_pair_sublist hσnd hstable
      exact Nat.lt_irrefl _ (Nat.lt_trans h1 h2)

theorem mem_take20_iff_uiRank {entries : List (List Char × ℚ)} {x : List Char × ℚ}
    (hnd : entries.Nodup) (hx : x ∈ entries) :
    x ∈ (pySortedByValDesc entries).take 20 ↔ uiRank entries x < 20 := by
  have hperm := pySorted_perm entries
  have hσnd : (pySortedByValDesc entries).Nodup := hperm.nodup_iff.2 hnd
  have hxσ : x ∈ pySortedByValDesc entries := hperm.mem_iff.2 hx
  obtain ⟨i, hi, hgi⟩ := List.getElem_of_mem hxσ
  have hcount : uiRank entries x = i := by
    unfold uiRank
    rw [← hperm.countP_eq]
    rw [← hgi]
    exact Py.countP_eq_index_of_pairwise (pySorted_pairwise_beats hnd)
      (beats_asymm entries) (beats_irrefl entries) i hi
  rw [hcount]
  exact Py.mem_take_iff_getElem_lt hσnd i hi hgi 20

theorem uiCollect_keys_nodup {issues : List UIIssue}
    {m : List (List Char × List (List Char × ℚ))}
    (h : uiCollect issues = .ok m) : (Py.dictKeys m).Nodup := by
  suffices haux : ∀ (is : List UIIssue) (acc : List (List Char × List (List Char × ℚ)))
      (out : List (List Char × List (List Char × ℚ))),
      is.foldlM
        (fun acc issue =>
          match uiMsgMatch issue.msg with
          | none => Except.ok acc
          | some (index, lane, overrep, thresholdStr) =>
            match Py.pyFloatChars? overrep, Py.pyFloatChars? thresholdStr with
            | some o, some _ =>
              Except.ok (Py.dictInsert acc index
                (Py.dictInsert ((Py.dictGet acc index).getD []) lane o))
            | _, _ => Except.error PyExc.valueError)
        acc = .ok out →
      (Py.dictKeys acc).Nodup → (Py.dictKeys out).Nodup by
    exact haux issues [] m h (by simp [Py.dictKeys])
  intro is
  induction is with
  | nil =>
    intro acc out h hnd
    cases h
    exact hnd
  | cons issue rest ih =>
    intro acc out h hnd
    rw [List.foldlM_cons] at h
    split at h
    · simp only [Bind.bind, Except.bind] at h
      exact ih _ out h hnd
    · split at h
      · simp only [Bind.bind, Except.bind] at h
        exact ih _ out h (Py.dictKeys_nodup_dictInsert _ _ hnd)
      · simp [Bind.bind, Except.bind] at h

theorem nodup_keys_eq_of_fst_eq {l : List (α × β)} (hnd : (l.map Prod.fst).Nodup)
    {a b : α × β} (ha : a ∈ l) (hb : b ∈ l) (hfst : a.1 = b.1) : a = b := by
  induction l with
  | nil => cases ha
  | cons hd tl ih =>
    rw [List.map_cons, List.nodup_cons] at hnd
    rcases List.mem_cons.1 ha with hae | ham
    · rcases List.mem_cons.1 hb with hbe | hbm
      · rw [hae, hbe]
      · exfalso
        apply hnd.1
        have hmem : b.1 ∈ List.map Prod.fst tl := List.mem_map_of_mem Prod.fst hbm
        rw [← hfst, hae] at hmem
        exact hmem
    · rcases List.mem_cons.1 hb with hbe | hbm
      · exfalso
        apply hnd.1
        have hmem : a.1 ∈ List.map Prod.fst tl := List.mem_map_of_mem Prod.fst ham
        rw [hfst, hbe] at hmem
        exact hmem
      · exact ih hnd.2 ham hbm

theorem stringMk_injective : Function.Injective (fun cs : List Char => (⟨cs⟩ : String)) :=
  fun _ _ h => congrArg String.data h

theorem uiBuildData_id_keys (run : String) (m : List (List Char × List (List Char × ℚ)))
    (sorted_idx : List (List Char × ℚ))
    (hnd : (sorted_idx.map (fun p => (⟨p.1⟩ : String))).Nodup) :
    Py.dictKeys (uiBuildData id (fun _ => false) true run m sorted_idx) =
      sorted_idx.map (fun p => (⟨p.1⟩ : String)) := by
  have heq : uiBuildData id (fun _ => false) true run m sorted_idx =
      sorted_idx.foldl
        (fun data p =>
          Py.dictInsert data ((fun p : List Char × ℚ => (⟨p.1⟩ : String)) p)
            ((fun (data : List (String × List (String × ℚ))) (p : List Char × ℚ) =>
              (((Py.dictGet m p.1).getD []).foldl
                (fun lanes lv => Py.dictInsert lanes (⟨lv.1⟩ : String) lv.2)
                ((Py.dictGet data (⟨p.1⟩ : String)).getD []))) data p))
        [] := rfl
  rw [heq, Py.foldl_insert_keys (fun p : List Char × ℚ => (⟨p.1⟩ : String)) _ sorted_idx []
    (by simp [Py.dictKeys]) hnd]
  simp [Py.dictKeys]

/-- C3: for every issue list whose messages parse (ratio-collection
succeeds) and yield at least 25 distinct indexes, the section data built
by `get_unidentified_index_data` has exactly 20 entries, and an index
appears in it exactly when fewer than 20 indexes rank above it — higher
mean overrepresentation, or equal mean and earlier first encounter
(the stable-sort tie-break). -/
theorem C3_top20_by_mean {issues : List UIIssue} {data : List (String × List (String × ℚ))}
    {m : List (List Char × List (List Char × ℚ))} {run : String}
    (hok : get_unidentified_index_data id (fun _ => false) true run issues = .ok data)
    (hm : uiCollect issues = .ok m)
    (h25 : 25 ≤ m.length) :
    data.length = 20 ∧
    ∀ x ∈ uiMeans m, ((⟨x.1⟩ : String) ∈ Py.dictKeys data ↔ uiRank (uiMeans m) x < 20) := by
  unfold get_unidentified_index_data at hok
  rw [hm] at hok
  simp only [Bind.bind, Except.bind] at hok
  have hdata : data = uiBuildData id (fun _ => false) true run m
      ((pySortedByValDesc (uiMeans m)).take 20) := (Except.ok.inj hok).symm
  have hkm : (uiMeans m).map Prod.fst = m.map Prod.fst := by
    unfold uiMeans
    rw [List.map_map]
    rfl
  have hndk : ((uiMeans m).map Prod.fst).Nodup := by
    rw [hkm]
    exact uiCollect_keys_nodup hm
  have hnd : (uiMeans m).Nodup := hndk.of_map
  have hperm := pySorted_perm (uiMeans m)
  have hσnd : (pySortedByValDesc (uiMeans m)).Nodup := hperm.nodup_iff.2 hnd
  have hσfstnd : ((pySortedByValDesc (uiMeans m)).map Prod.fst).Nodup :=
    ((hperm.map Prod.fst).nodup_iff).2 hndk
  have htknd : (((pySortedByValDesc (uiMeans m)).take 20).map Prod.fst).Nodup :=
    hσfstnd.sublist (((pySortedByValDesc (uiMeans m)).take_sublist 20).map Prod.fst)
  have hmapeq : ((pySortedByValDesc (uiMeans m)).take 20).map
      (fun p : List Char × ℚ => (⟨p.1⟩ : String)) =
      (((pySortedByValDesc (uiMeans m)).take 20).map Prod.fst).map
        (fun cs : List Char => (⟨cs⟩ : String)) := by
    rw [List.map_map]
    rfl
  have htkmknd : (((pySortedByValDesc (uiMeans m)).take 20).map
      (fun p : List Char × ℚ => (⟨p.1⟩ : String))).Nodup := by
    rw [hmapeq]
    exact htknd.map stringMk_injective
  have hkeys : Py.dictKeys data = ((pySortedByValDesc (uiMeans m)).take 20).map
      (fun p : List Char × ℚ => (⟨p.1⟩ : String)) := by
    rw [hdata]
    exact uiBuildData_id_keys run m _ htkmknd
  have hσlen : (pySortedByValDesc (uiMeans m)).length = m.length := by
    rw [hperm.length_eq]
    unfold uiMeans
    exact List.length_map _ _
  constructor
  · have hdlen : data.length = (Py.dictKeys data).length :=
      (List.length_map _ _).symm
    rw [hdlen, hkeys, List.length_map, List.length_take, hσlen]
    omega
  · intro x hx
    rw [hkeys]
    constructor
    · intro hmem
      rw [List.mem_map] at hmem
      obtain ⟨y, hyt, hye⟩ := hmem
      have hyfst : y.1 = x.1 := stringMk_injective hye
      have hyσ : y ∈ pySortedByValDesc (uiMeans m) :=
        ((pySortedByValDesc (uiMeans m)).take_sublist 20).subset hyt
      have hym : y ∈ uiMeans m := hperm.subset hyσ
      have hyx : y = x := nodup_keys_eq_of_fst_eq hndk hym hx hyfst
      exact (mem_take20_iff_uiRank hnd hx).1 (hyx ▸ hyt)
    · intro hrank
      exact List.mem_map_of_mem _ ((mem_take20_iff_uiRank hnd hx).2 hrank)

/-- 25 issues with distinct indexes and mean overrepresentations 1.0%
through 25.0%. -/
def c3Issues : List UIIssue :=
  [⟨"warning", "Index: AAAA on lane: 1 was significantly overrepresented (1.0%) at significance threshold of: 1.0%."⟩,
   ⟨"warning", "Index: AAAC on lane: 1 was significantly overrepresented (2.0%) at significance threshold of: 1.0%."⟩,
   ⟨"warning", "Index: AAAG on lane: 1 was significantly overrepresented (3.0%) at significance threshold of: 1.0%."⟩,
   ⟨"warning", "Index: AAAT on lane: 1 was significantly overrepresented (4.0%) at significance threshold of: 1.0%."⟩,
   ⟨"warning", "Index: AACA on lane: 1 was significantly overrepresented (5.0%) at significance threshold of: 1.0%."⟩,
   ⟨"warning", "Index: AACC on lane: 1 was significantly overrepresented (6.0%) at significance threshold of: 1.0%."⟩,
   ⟨"warning", "Index: AACG on lane: 1 was significantly overrepresented (7.0%) at significance threshold of: 1.0%."⟩,
   ⟨"warning", "Index: AACT on lane: 1 was significantly overrepresented (8.0%) at significance threshold of: 1.0%."⟩,
   ⟨"warning", "Index: AAGA on lane: 1 was significantly overrepresented (9.0%) at significance threshold of: 1.0%."⟩,
   ⟨"warning", "Index: AAGC on lane: 1 was significantly overrepresented (10.0%) at significance threshold of: 1.0%."⟩,
   ⟨"warning", "Index: AAGG on lane: 1 was significantly overrepresented (11.0%) at significance threshold of: 1.0%."⟩,
   ⟨"warning", "Index: AAGT on lane: 1 was significantly overrepresented (12.0%) at significance threshold of: 1.0%."⟩,
   ⟨"warning", "Index: AATA on lane: 1 was significantly overrepresented (13.0%) at significance threshold of: 1.0%."⟩,
   ⟨"warning", "Index: AATC on lane: 1 was significantly overrepresented (14.0%) at significance threshold of: 1.0%."⟩,
   ⟨"warning", "Index: AATG on lane: 1 was significantly overrepresented (15.0%) at significance threshold of: 1.0%."⟩,
   ⟨"warning", "Index: AATT on lane: 1 was significantly overrepresented (16.0%) at significance threshold of: 1.0%."⟩,
   ⟨"warning", "Index: ACAA on lane: 1 was significantly overrepresented (17.0%) at significance threshold of: 1.0%."⟩,
   ⟨"warning", "Index: ACAC on lane: 1 was significantly overrepresented (18.0%) at significance threshold of: 1.0%."⟩,
   ⟨"warning", "Index: ACAG on lane: 1 was significantly overrepresented (19.0%) at significance threshold of: 1.0%."⟩,
   ⟨"warning", "Index: ACAT on lane: 1 was significantly overrepresented (20.0%) at significance threshold of: 1.0%."⟩,
   ⟨"warning", "Index: ACCA on lane: 1 was significantly overrepresented (21.0%) at significance threshold of: 1.0%."⟩,
   ⟨"warning", "Index: ACCC on lane: 1 was significantly overrepresented (22.0%) at significance threshold of: 1.0%."⟩,
   ⟨"warning", "Index: ACCG on lane: 1 was significantly overrepresented (23.0%) at significance threshold of: 1.0%."⟩,
   ⟨"warning", "Index: ACCT on lane: 1 was significantly overrepresented (24.0%) at significance threshold of: 1.0%."⟩,
   ⟨"warning", "Index: ACGA on lane: 1 was significantly overrepresented (25.0%) at significance threshold of: 1.0%."⟩]

/-- The collected index/lane/overrepresentation map for `c3Issues`. -/
def c3M : List (List Char × List (List Char × ℚ)) :=
  [("AAAA".data, [("1".data, 1)]),
   ("AAAC".data, [("1".data, 2)]),
   ("AAAG".data, [("1".data, 3)]),
   ("AAAT".data, [("1".data, 4)]),
   ("AACA".data, [("1".data, 5)]),
   ("AACC".data, [("1".data, 6)]),
   ("AACG".data, [("1".data, 7)]),
   ("AACT".data, [("1".data, 8)]),
   ("AAGA".data, [("1".data, 9)]),
   ("AAGC".data, [("1".data, 10)]),
   ("AAGG".data, [("1".data, 11)]),
   ("AAGT".data, [("1".data, 12)]),
   ("AATA".data, [("1".data, 13)]),
   ("AATC".data, [("1".data, 14)]),
   ("AATG".data, [("1".data, 15)]),
   ("AATT".data, [("1".data, 16)]),
   ("ACAA".data, [("1".data, 17)]),
   ("ACAC".data, [("1".data, 18)]),
   ("ACAG".data, [("1".data, 19)]),
   ("ACAT".data, [("1".data, 20)]),
   ("ACCA".data, [("1".data, 21)]),
   ("ACCC".data, [("1".data, 22)]),
   ("ACCG".data, [("1".data, 23)]),
   ("ACCT".data, [("1".data, 24)]),
   ("ACGA".data, [("1".data, 25)])]

/-- The section data for `c3Issues`: the 20 highest means, descending. -/
def c3Data : List (String × List (String × ℚ)) :=
  [("ACGA", [("1", (25 : ℚ))]),
   ("ACCT", [("1", (24 : ℚ))]),
   ("ACCG", [("1", (23 : ℚ))]),
   ("ACCC", [("1", (22 : ℚ))]),
   ("ACCA", [("1", (21 : ℚ))]),
   ("ACAT", [("1", (20 : ℚ))]),
   ("ACAG", [("1", (19 : ℚ))]),
   ("ACAC", [("1", (18 : ℚ))]),
   ("ACAA", [("1", (17 : ℚ))]),
   ("AATT", [("1", (16 : ℚ))]),
   ("AATG", [("1", (15 : ℚ))]),
   ("AATC", [("1", (14 : ℚ))]),
   ("AATA", [("1", (13 : ℚ))]),
   ("AAGT", [("1", (12 : ℚ))]),
   ("AAGG", [("1", (11 : ℚ))]),
   ("AAGC", [("1", (10 : ℚ))]),
   ("AAGA", [("1", (9 : ℚ))]),
   ("AACT", [("1", (8 : ℚ))]),
   ("AACG", [("1", (7 : ℚ))]),
   ("AACC", [("1", (6 : ℚ))])]

unseal Rat.mul Rat.add Rat.sub Rat.inv in
/-- Witness for C3: at 25 distinct indexes exactly the 20 with the highest
means survive. -/
theorem C3_top20_by_mean_witness :
    25 ≤ c3M.length ∧
    (c3Data.length = 20 ∧
      ∀ x ∈ uiMeans c3M,
        ((⟨x.1⟩ : String) ∈ Py.dictKeys c3Data ↔ uiRank (uiMeans c3M) x < 20)) :=
  ⟨by decide,
    @C3_top20_by_mean c3Issues c3Data c3M "run" (by decide) (by decide) (by decide)⟩

/-- C4: with one file's ClusterPF data already aggregated (the keys of
`checkqc_data` are handler names), a second file with the same
`instrument_and_reagent_type` gets the very same run name — no numeric
suffix is appended, because the collision check consults handler-name
keys and run names are never inserted there.  The third conjunct shows
the loop would suffix only if the run name itself were a key. -/
theorem C4_runname_not_disambiguated :
    _get_unique_runname [] "HiSeqX_v2_5" =
      _get_unique_runname ["ClusterPFHandler"] "HiSeqX_v2_5" ∧
    _get_unique_runname ["ClusterPFHandler"] "HiSeqX_v2_5" = "HiSeqX_v2_5" ∧
    _get_unique_runname ["HiSeqX_v2_5"] "HiSeqX_v2_5" = "HiSeqX_v2_5_1" := by
  decide

end CheckQC

namespace Merqury

/-- One row of a `*completeness.tab` file: columns 2-4, stored verbatim
as strings. -/
structure CompletenessRecord where
  val1 : List Char
  val2 : List Char
  percent : List Char
deriving DecidableEq

/-- One row of a `*qv.tab` file: columns 1-4, stored verbatim. -/
structure QvRecord where
  val1 : List Char
  val2 : List Char
  qv : List Char
  error : List Char
deriving DecidableEq

/-- `MultiqcModule.parse_completeness_log`: the sample key is the file
name with the `_output_merqury.completeness.tab` suffix removed plus
`"_"` plus the row's first column; a row with fewer than five
tab-separated columns raises `IndexError`. -/
def parse_completeness_log (s_name_raw : List Char) (text : String)
    (acc : List (List Char × CompletenessRecord)) :
    Except PyExc (List (List Char × CompletenessRecord)) :=
  let s_name := Py.removeAll "_output_merqury.completeness.tab".data s_name_raw
  (Py.pySplitlines text).foldlM
    (fun d l =>
      let s := Py.splitOnChar '\t' (Py.pyStrip l)
      match s[0]?, s[2]?, s[3]?, s[4]? with
      | some suffix, some v1, some v2, some v3 =>
        Except.ok (Py.dictInsert d (s_name ++ '_' :: suffix) ⟨v1, v2, v3⟩)
      | _, _, _, _ => Except.error PyExc.indexError)
    acc

/-- `MultiqcModule.parse_qv_log`, analogous with the
`_output_merqury.qv.tab` suffix and columns 1-4. -/
def parse_qv_log (s_name_raw : List Char) (text : String)
    (acc : List (List Char × QvRecord)) :
    Except PyExc (List (List Char × QvRecord)) :=
  let s_name := Py.removeAll "_output_merqury.qv.tab".data s_name_raw
  (Py.pySplitlines text).foldlM
    (fun d l =>
      let s := Py.splitOnChar '\t' (Py.pyStrip l)
      match s[0]?, s[1]?, s[2]?, s[3]?, s[4]? with
      | some suffix, some v1, some v2, some v3, some v4 =>
        Except.ok (Py.dictInsert d (s_name ++ '_' :: suffix) ⟨v1, v2, v3, v4⟩)
      | _, _, _, _, _ => Except.error PyExc.indexError)
    acc

/-- `MultiqcModule.parse_spectra_log`: the sample key is the file name up
to the first `"."`, the plot key is the rest; the header row is skipped
and every following `<series>\t<multiplicity>\t<count>` row is stored
with the two numeric columns converted by `int()`. -/
def parse_spectra_log (s_name_raw : List Char) (text : String)
    (acc : List (List Char × List (List Char × List (List Char × List (ℤ × ℤ))))) :
    Except PyExc (List (List Char × List (List Char × List (List Char × List (ℤ × ℤ))))) := do
  let parts := Py.splitOnChar '.' s_name_raw
  let s_name := parts.headD []
  let p_name := List.intercalate ['.'] (parts.drop 1)
  let data ← ((Py.pySplitlines text).drop 1).foldlM
    (fun (data : List (List Char × List (ℤ × ℤ))) l =>
      let s := Py.splitOnChar '\t' (Py.pyStrip l)
      match s[0]?, s[1]?, s[2]? with
      | some serie, some m1, some c1 =>
        match Py.pyIntChars? m1, Py.pyIntChars? c1 with
        | some mult, some cnt =>
          Except.ok (Py.dictInsert data serie
            (Py.dictInsert ((Py.dictGet data serie).getD []) mult cnt))
        | _, _ => Except.error PyExc.valueError
      | _, _, _ => Except.error PyExc.indexError)
    []
  Except.ok (Py.dictInsert acc s_name
    (Py.dictInsert ((Py.dictGet acc s_name).getD []) p_name data))

/-- Merqury's `__init__`: parse the three report kinds, then raise
`UserWarning` — before any section is added — when all three are empty. -/
def merquryInit (completenessFiles qvFiles spectraFiles : List (List Char × String)) :
    Except PyExc (List (List Char × CompletenessRecord) × List (List Char × QvRecord) ×
      List (List Char × List (List Char × List (List Char × List (ℤ × ℤ))))) := do
  let completeness_data ← completenessFiles.foldlM
    (fun acc f => parse_completeness_log f.1 f.2 acc) []
  let qv_data ← qvFiles.foldlM (fun acc f => parse_qv_log f.1 f.2 acc) []
  let spectra_data ← spectraFiles.foldlM (fun acc f => parse_spectra_log f.1 f.2 acc) []
  if completeness_data.isEmpty ∧ qv_data.isEmpty ∧ spectra_data.isEmpty then
    Except.error PyExc.userWarning
  else pure (completeness_data, qv_data, spectra_data)

end Merqury

namespace Pretext

/-- The names bound at module scope in `pretext.py`: its `from ... import`
and `import` bindings, the logger, and the class.  `traceback` is absent —
the module never imports it. -/
def moduleNames : List String :=
  ["print_function", "base64", "logging", "re", "OrderedDict",
   "BaseMultiqcModule", "log", "MultiqcModule"]

/-- The `except` clauses of Pretext's `__init__`: `UserWarning` is
silently passed; for any other exception the handler runs
`log.error(err)` and then `log.debug(traceback.format_exc())` — and that
name lookup itself raises `NameError` when `traceback` is not bound in
the module namespace. -/
def runTryExcept (body : Except PyExc (List String)) : Except PyExc (List String) :=
  match body with
  | Except.ok sections => Except.ok sections
  | Except.error PyExc.userWarning => Except.ok []
  | Except.error _ =>
    if moduleNames.contains "traceback" then Except.ok []
    else Except.error (PyExc.nameError "traceback")

/-- The body of the `try` block: raise `UserWarning` when no image was
found, otherwise add one section per image. -/
def tryBody (pretext_data : List (String × String)) : Except PyExc (List String) :=
  if pretext_data.isEmpty then Except.error PyExc.userWarning
  else Except.ok (pretext_data.map Prod.fst)

/-- Pretext's `__init__`: discovery and base64 encoding run outside the
`try` (their exceptions propagate untouched), then the `try`/`except`
block wraps the no-data check and the section rendering. -/
def pretextInit (discovery : Except PyExc (List (String × String))) :
    Except PyExc (List String) :=
  match discovery with
  | Except.error e => Except.error e
  | Except.ok pretext_data => runTryExcept (tryBody pretext_data)

end Pretext

namespace FastqScreen

/-- FastQ Screen's `__init__` after report discovery: raise `UserWarning`
to the host when no report was found — before any output is built —
otherwise parse the reports. -/
def fastqScreenInit (fq_screen_raw_data : List (String × String)) :
    Except PyExc (List (String × List (String × OrgRecord))) :=
  if fq_screen_raw_data.isEmpty then Except.error PyExc.userWarning
  else parse_fqscreen fq_screen_raw_data

end FastqScreen

namespace Genomescope2

/-- Genomescope2's `__init__`: parse every summary file into
`summary_data`, collect the PNG images (their base64 payload is carried
opaquely), and raise `UserWarning` when both collections are empty. -/
def genomescope2Init (summaryFiles : List (String × String))
    (pngs : List (String × String)) :
    Except PyExc (List (String × List (List Char × PyVal)) × List (String × String)) := do
  let summary_data ← summaryFiles.foldlM
    (fun d f => do
      let r ← parse_summary_log f.2
      pure (Py.dictInsert d f.1 r.1))
    []
  if summary_data.isEmpty ∧ pngs.isEmpty then Except.error PyExc.userWarning
  else pure (summary_data, pngs)

end Genomescope2

/-- C7 counterexample: with zero discovered images, Pretext raises its
`UserWarning` inside the `try` and immediately catches it itself
(`except UserWarning: pass`), so the constructor returns normally — the
host never receives the no-data signal (it merely gets no section). -/
theorem C7_pretext_catches_own_signal :
    Pretext.pretextInit (Except.ok []) = Except.ok [] ∧
    Pretext.pretextInit (Except.ok []) ≠ Except.error PyExc.userWarning := by
  decide

set_option synthInstance.maxSize 4000 in
/-- C7 (amended): on zero matching files, FastQ Screen, CheckQC,
Genomescope2 and Merqury raise `UserWarning` to the host before building
any section; Pretext raises it internally but catches it itself, so its
constructor returns normally with no section added. -/
theorem C7_no_data_signals :
    FastqScreen.fastqScreenInit [] = Except.error PyExc.userWarning ∧
    CheckQC.checkqcInit id (fun _ => false) [] = Except.error PyExc.userWarning ∧
    Genomescope2.genomescope2Init [] [] = Except.error PyExc.userWarning ∧
    Merqury.merquryInit [] [] [] = Except.error PyExc.userWarning ∧
    Pretext.pretextInit (Except.ok []) = Except.ok [] :=
  ⟨by decide, by decide, by decide, by decide, by decide⟩

/-- C8: an unexpected exception is NOT swallowed by Pretext.  An
exception during discovery propagates untouched (discovery is outside the
`try`), `traceback` is not bound in the module namespace, and therefore
the `except Exception` handler itself raises `NameError` while formatting
the stack trace, which propagates out of the constructor. -/
theorem C8_exception_escapes :
    Pretext.pretextInit (Except.error (PyExc.osError "io failure")) =
      Except.error (PyExc.osError "io failure") ∧
    Pretext.moduleNames.contains "traceback" = false ∧
    Pretext.runTryExcept (Except.error (PyExc.osError "boom")) =
      Except.error (PyExc.nameError "traceback") := by
  decide
